import Mathlib

/-!
Verification of the per-frame simulation engine of the agar.io-style game
(static/js/config.js, utils.js, entities.js, collisions.js, game.js).

Modelling conventions.

Scores, positions and velocities are real-valued in the source (JS numbers);
they are embedded as rationals.  The only transcendental operation the engine
uses is the square root, which appears in getSize, getDistance, the pointer
direction normalisation and nowhere else.  Every definition below is therefore
parameterised by the square-root function f : Q -> Q of the host platform, and
every theorem either holds for all f (all structural properties of the
algorithms do), or is stated with an explicit hypothesis on f, or is evaluated
at ratSqrt, a computable function that agrees with the exact real square root
on every perfect square.  All concrete states used in evaluations are chosen so
that f is only ever applied to perfect squares, so the evaluated runs are
exactly the runs the real engine performs on those states.

Randomness (Math.random in getRandomPosition, AI direction changes, colors)
is modelled by explicit streams of draws passed to each consuming function,
and Date.now() by an explicit parameter now.  The mutable gameState of
gameState.js becomes the GameState structure passed through each update stage.
-/

namespace Agar

/-! ### Configuration constants (config.js) -/

def WORLD_SIZE : ℚ := 2000
def FOOD_SIZE : ℚ := 5
def STARTING_SCORE : ℚ := 100
def AI_STARTING_SCORE : ℚ := 50
def FOOD_SCORE : ℚ := 10
def FOOD_COUNT : ℕ := 100
def AI_COUNT : ℕ := 10
def COLLISION_THRESHOLD : ℚ := 11/10
def MIN_SPLIT_SCORE : ℚ := 40
def SPLIT_VELOCITY : ℚ := 12
def MAX_PLAYER_CELLS : ℕ := 16
def MERGE_DISTANCE : ℚ := 2
def MERGE_COOLDOWN : ℚ := 10000
def MERGE_FORCE : ℚ := 3/10
def MERGE_START_FORCE : ℚ := 1/10

/-! ### Data model (gameState.js) -/

structure Point where
  x : ℚ
  y : ℚ
deriving DecidableEq, Repr

/-- A player cell.  A cell object freshly pushed by the collision resolver has
no splitTime field; in the source an absent field reads as undefined and every
use is guarded by a fallback to 0, so splitTime is embedded as a rational
defaulting to 0. -/
structure Cell where
  x : ℚ
  y : ℚ
  score : ℚ
  velocityX : ℚ
  velocityY : ℚ
  splitTime : ℚ := 0
deriving DecidableEq, Repr

/-- An AI player.  The hsl color string is identified with its random hue. -/
structure AIPlayer where
  x : ℚ
  y : ℚ
  score : ℚ
  hue : ℚ
  direction : ℚ
  name : String
deriving DecidableEq, Repr

structure Food where
  x : ℚ
  y : ℚ
  hue : ℚ
deriving DecidableEq, Repr

structure GameState where
  playerCells : List Cell
  aiPlayers : List AIPlayer
  food : List Food
deriving DecidableEq, Repr

/-! ### Geometry utilities (utils.js) -/

/-- getSize(score) = Math.sqrt(score) + 20, with the host square root f. -/
def getSize (f : ℚ → ℚ) (score : ℚ) : ℚ := f score + 20

/-- getDistance(obj1, obj2) = Math.sqrt(dx*dx + dy*dy). -/
def getDistance (f : ℚ → ℚ) (p q : Point) : ℚ :=
  f ((p.x - q.x) * (p.x - q.x) + (p.y - q.y) * (p.y - q.y))

def Cell.pos (c : Cell) : Point := ⟨c.x, c.y⟩

def AIPlayer.pos (ai : AIPlayer) : Point := ⟨ai.x, ai.y⟩

def Food.pos (fd : Food) : Point := ⟨fd.x, fd.y⟩

/-! ### A computable square root used to evaluate concrete runs

isqrt n is the integer square root computed by a fuelled linear search, and
ratSqrt extends it to rationals through the reduced numerator and denominator.
On a perfect square of a natural number, which is the only kind of input the
concrete states below ever feed to it, ratSqrt coincides with the real square
root that Math.sqrt computes exactly on such inputs. -/

def isqrtGo (n : ℕ) : ℕ → ℕ → ℕ
  | 0, k => k
  | fuel+1, k => if (k+1)*(k+1) ≤ n then isqrtGo n fuel (k+1) else k

def isqrt (n : ℕ) : ℕ := isqrtGo n n 0

def ratSqrt (q : ℚ) : ℚ := (isqrt q.num.toNat : ℚ) / (isqrt q.den : ℚ)

lemma isqrt_one : isqrt 1 = 1 := by decide

lemma ratSqrt_natCast (n : ℕ) : ratSqrt (n : ℚ) = (isqrt n : ℚ) := by
  simp [ratSqrt, isqrt_one]

lemma ratSqrt_ofNat (n : ℕ) [n.AtLeastTwo] :
    ratSqrt (OfNat.ofNat n : ℚ) = (isqrt n : ℚ) := by
  rw [show (OfNat.ofNat n : ℚ) = ((n : ℕ) : ℚ) by norm_cast, ratSqrt_natCast]

lemma ratSqrt_zero : ratSqrt 0 = 0 := by
  rw [show (0:ℚ) = ((0:ℕ):ℚ) by norm_num, ratSqrt_natCast]
  norm_num [show isqrt 0 = 0 by decide]

lemma ratSqrt_nonneg (q : ℚ) : 0 ≤ ratSqrt q := by
  unfold ratSqrt
  positivity

/-! ### Cell splitting (entities.js: splitPlayerCell, handlePlayerSplit)

The split direction is derived from the live mouse position and the viewport
dimensions (window.innerWidth/innerHeight), which enter as parameters.  The
cell argument of splitPlayerCell is a live reference into
gameState.playerCells; it is embedded as the index of that cell. -/

def splitPlayerCell (f : ℚ → ℚ) (mouse : Point) (innerWidth innerHeight now : ℚ)
    (gs : GameState) (cellIdx : ℕ) : GameState :=
  match gs.playerCells.get? cellIdx with
  | none => gs
  | some cell =>
    if cell.score < MIN_SPLIT_SCORE ∨ gs.playerCells.length ≥ MAX_PLAYER_CELLS then gs
    else
      let dx := mouse.x - innerWidth / 2
      let dy := mouse.y - innerHeight / 2
      let distance := f (dx * dx + dy * dy)
      if distance = 0 then gs
      else
        let dirx := dx / distance
        let diry := dy / distance
        let newCell : Cell :=
          { x := cell.x, y := cell.y, score := cell.score / 2,
            velocityX := dirx * SPLIT_VELOCITY, velocityY := diry * SPLIT_VELOCITY,
            splitTime := now }
        let cell' : Cell :=
          { cell with
            score := cell.score / 2,
            velocityX := -dirx * SPLIT_VELOCITY * (1/2),
            velocityY := -diry * SPLIT_VELOCITY * (1/2),
            splitTime := now }
        { gs with playerCells := gs.playerCells.set cellIdx cell' ++ [newCell] }

/-- handlePlayerSplit filters the eligible cells against the pre-split list,
then splits each of them in order; each splitPlayerCell call re-checks the
live cell count. -/
def handlePlayerSplit (f : ℚ → ℚ) (mouse : Point) (innerWidth innerHeight now : ℚ)
    (gs : GameState) : GameState :=
  let cellsToSplit := (List.range gs.playerCells.length).filter fun i =>
    match gs.playerCells.get? i with
    | some c => decide (c.score ≥ MIN_SPLIT_SCORE) &&
        decide (gs.playerCells.length < MAX_PLAYER_CELLS)
    | none => false
  cellsToSplit.foldl (fun g i => splitPlayerCell f mouse innerWidth innerHeight now g i) gs

/-! ### Merge physics, scoring pass (entities.js: updateCellMerging first pass)

The per-pair physics follows the decomposed form of the source
(calculatePairPhysics / applyAttractionForce / applyRepulsionForce /
shouldMarkForMerge / computeMergeCandidatesAndForces).  Positions, scores and
splitTimes are not mutated during the scan, only velocities are, so the pair
quantities are computed from the current list entries as the source does. -/

structure PairPhysics where
  distance : ℚ
  cell1Size : ℚ
  cell2Size : ℚ
  minMergeDistance : ℚ
  minDistance : ℚ
  canMerge : Bool

def calculatePairPhysics (f : ℚ → ℚ) (cell1 cell2 : Cell) (now : ℚ) : PairPhysics :=
  let distance := getDistance f cell1.pos cell2.pos
  let cell1Size := getSize f cell1.score
  let cell2Size := getSize f cell2.score
  { distance := distance
    cell1Size := cell1Size
    cell2Size := cell2Size
    minMergeDistance := (cell1Size + cell2Size) * MERGE_DISTANCE
    minDistance := cell1Size + cell2Size
    canMerge := decide (now - cell1.splitTime > MERGE_COOLDOWN) &&
        decide (now - cell2.splitTime > MERGE_COOLDOWN) }

/-- applyAttractionForce mutates the two cells symmetrically; the embedding
returns the updated pair. -/
def applyAttractionForce (cell1 cell2 : Cell) (distance : ℚ) (canMerge : Bool) :
    Cell × Cell :=
  let dx := cell2.x - cell1.x
  let dy := cell2.y - cell1.y
  let force := if canMerge then MERGE_FORCE else MERGE_START_FORCE
  let factor := force / max 1 distance
  ({ cell1 with
     velocityX := cell1.velocityX + dx * factor,
     velocityY := cell1.velocityY + dy * factor },
   { cell2 with
     velocityX := cell2.velocityX - dx * factor,
     velocityY := cell2.velocityY - dy * factor })

def applyRepulsionForce (cell1 cell2 : Cell) (distance minDistance : ℚ) :
    Cell × Cell :=
  let repulsionStrength : ℚ := 3/10
  let repulsionFactor := (minDistance - distance) / minDistance * repulsionStrength
  let dx := cell2.x - cell1.x
  let dy := cell2.y - cell1.y
  ({ cell1 with
     velocityX := cell1.velocityX - dx * repulsionFactor,
     velocityY := cell1.velocityY - dy * repulsionFactor },
   { cell2 with
     velocityX := cell2.velocityX + dx * repulsionFactor,
     velocityY := cell2.velocityY + dy * repulsionFactor })

def shouldMarkForMerge (distance minDistance : ℚ) : Bool :=
  distance < minDistance * (1/2)

/-- Writes an updated pair back into the cell list at the two indices. -/
def setPair (cells : List Cell) (i j : ℕ) (p : Cell × Cell) : List Cell :=
  (cells.set i p.1).set j p.2

/-- The distance test guarding the repulsion branch of the pair scan. -/
def repulsionBranchFires (ph : PairPhysics) : Bool :=
  ph.distance < ph.minDistance

/-- The distance test guarding the attraction branch of the pair scan that
also covers pairs not yet past the merge cooldown. -/
def looseAttractionFires (ph : PairPhysics) : Bool :=
  ph.distance > ph.minDistance

/-- The else-branch of the pair scan: repulsion when too close, then
attraction when not too close, each re-reading the live cells. -/
def mergeElseBranch (cells : List Cell) (i j : ℕ) (ph : PairPhysics) : List Cell :=
  let cells1 :=
    if repulsionBranchFires ph then
      match cells.get? i, cells.get? j with
      | some c1, some c2 =>
          setPair cells i j (applyRepulsionForce c1 c2 ph.distance ph.minDistance)
      | _, _ => cells
    else cells
  if looseAttractionFires ph then
    match cells1.get? i, cells1.get? j with
    | some c1, some c2 =>
        setPair cells1 i j (applyAttractionForce c1 c2 ph.distance ph.canMerge)
    | _, _ => cells1
  else cells1

/-- One inner-loop iteration of the scoring pass for the pair (i, j).
The source skips the pair when j is already marked; the state is the cell
list (velocities may have been updated) plus the cellsToMerge index list. -/
def pairStep (f : ℚ → ℚ) (now : ℚ) (st : List Cell × List ℕ) (i j : ℕ) :
    List Cell × List ℕ :=
  let cells := st.1
  let cellsToMerge := st.2
  if cellsToMerge.contains j then st
  else
    match cells.get? i, cells.get? j with
    | some cell1, some cell2 =>
      let ph := calculatePairPhysics f cell1 cell2 now
      if ph.distance < ph.minMergeDistance ∧ ph.canMerge = true then
        if shouldMarkForMerge ph.distance ph.minDistance then
          (cells, cellsToMerge ++ [i, j])
        else
          (setPair cells i j (applyAttractionForce cell1 cell2 ph.distance ph.canMerge),
           cellsToMerge)
      else
        (mergeElseBranch cells i j ph, cellsToMerge)
    | _, _ => st

/-- The full scoring pass: outer index i over all cells (skipped when i is
already marked), inner index j over i+1 .. n-1. -/
def computeMergeCandidatesAndForces (f : ℚ → ℚ) (now : ℚ) (cells : List Cell) :
    List Cell × List ℕ :=
  let n := cells.length
  (List.range n).foldl
    (fun st i =>
      if st.2.contains i then st
      else (List.range' (i+1) (n - (i+1))).foldl (fun st' j => pairStep f now st' i j) st)
    (cells, [])

/-! ### Merge physics, commit pass (entities.js: executeMerges)

The source sorts cellsToMerge descending with sort((a, b) => b - a), removes
duplicates with a Set (which preserves first occurrences, here of an already
sorted list), chains consecutive indices into groups, and collapses each group
into one cell.  JS sort on numbers is modelled by a stable insertion sort into
descending order, and the Set spread by a first-occurrence deduplication. -/

def insertDesc (x : ℕ) : List ℕ → List ℕ
  | [] => [x]
  | y :: ys => if x ≥ y then x :: y :: ys else y :: insertDesc x ys

def sortDesc : List ℕ → List ℕ
  | [] => []
  | x :: xs => insertDesc x (sortDesc xs)

def dedupFirst (seen : List ℕ) : List ℕ → List ℕ
  | [] => []
  | x :: xs => if seen.contains x then dedupFirst seen xs else x :: dedupFirst (x :: seen) xs

/-- groupConsecutiveIndices chains a run while prev - current === 1, where
prev is the last element pushed into the current group. -/
def groupRunsAux (cur : List ℕ) : List ℕ → List (List ℕ)
  | [] => [cur]
  | x :: xs =>
    if (cur.getLast?.getD 0 : ℤ) - (x : ℤ) = 1 then groupRunsAux (cur ++ [x]) xs
    else cur :: groupRunsAux [x] xs

def groupConsecutiveIndices : List ℕ → List (List ℕ)
  | [] => []
  | x :: xs => groupRunsAux [x] xs

/-- mergeCellGroup: read the group's cells, combine mass, mass-weighted
position and velocity, splice the group out in descending index order, and
push the merged cell with splitTime reset to 0. -/
def mergeCellGroup (cells : List Cell) (group : List ℕ) : List Cell :=
  let groupCells := group.filterMap fun index => cells.get? index
  let totalScore := (groupCells.map fun c => c.score).sum
  let weightedX := (groupCells.map fun c => c.x * c.score).sum / totalScore
  let weightedY := (groupCells.map fun c => c.y * c.score).sum / totalScore
  let avgVelocityX := (groupCells.map fun c => c.velocityX * c.score).sum / totalScore
  let avgVelocityY := (groupCells.map fun c => c.velocityY * c.score).sum / totalScore
  let removed := (sortDesc group).foldl (fun cs index => cs.eraseIdx index) cells
  removed ++ [{ x := weightedX, y := weightedY, score := totalScore,
                velocityX := avgVelocityX, velocityY := avgVelocityY, splitTime := 0 }]

def executeMerges (cellsToMerge : List ℕ) (cells : List Cell) : List Cell :=
  let uniqueIndices := dedupFirst [] (sortDesc cellsToMerge)
  let groups := groupConsecutiveIndices uniqueIndices
  groups.foldl mergeCellGroup cells

def updateCellMerging (f : ℚ → ℚ) (now : ℚ) (cells : List Cell) : List Cell :=
  let scan := computeMergeCandidatesAndForces f now cells
  if scan.2.length > 0 then executeMerges scan.2 scan.1 else scan.1

/-! ### Player movement (entities.js: updatePlayer) -/

def movePlayerCell (f : ℚ → ℚ) (dirx diry : ℚ) (cell : Cell) : Cell :=
  let speed := 5 / (getSize f cell.score / 20)
  let vx := cell.velocityX * (9/10) + dirx * speed * (1/10)
  let vy := cell.velocityY * (9/10) + diry * speed * (1/10)
  { cell with
    velocityX := vx,
    velocityY := vy,
    x := max 0 (min WORLD_SIZE (cell.x + vx)),
    y := max 0 (min WORLD_SIZE (cell.y + vy)) }

/-- The movement loop of updatePlayer: no velocity or position update at all
when the pointer direction has zero magnitude. -/
def movePlayerCells (f : ℚ → ℚ) (mouse : Point) (innerWidth innerHeight : ℚ)
    (cells : List Cell) : List Cell :=
  let dx := mouse.x - innerWidth / 2
  let dy := mouse.y - innerHeight / 2
  let distance := f (dx * dx + dy * dy)
  if distance > 0 then
    cells.map (movePlayerCell f (dx / distance) (dy / distance))
  else cells

def updatePlayer (f : ℚ → ℚ) (mouse : Point) (innerWidth innerHeight now : ℚ)
    (gs : GameState) : GameState :=
  { gs with playerCells :=
      updateCellMerging f now (movePlayerCells f mouse innerWidth innerHeight gs.playerCells) }

/-! ### AI movement (entities.js: updateAI)

Math.random() < 0.02 direction rerolls and the trigonometric step are driven
by per-index draw streams and by the host cosine/sine, all parameters. -/

def updateAIOne (f cosF sinF : ℚ → ℚ) (roll newDir : ℚ) (ai : AIPlayer) : AIPlayer :=
  let direction := if roll < 2/100 then newDir else ai.direction
  let speed := 5 / (getSize f ai.score / 20)
  { ai with
    direction := direction,
    x := max 0 (min WORLD_SIZE (ai.x + cosF direction * speed)),
    y := max 0 (min WORLD_SIZE (ai.y + sinF direction * speed)) }

def updateAI (f cosF sinF : ℚ → ℚ) (rolls newDirs : ℕ → ℚ) (ais : List AIPlayer) :
    List AIPlayer :=
  (ais.zip (List.range ais.length)).map fun p =>
    updateAIOne f cosF sinF (rolls p.2) (newDirs p.2) p.1

/-! ### AI identity (entities.js: AI_NAMES, getUnusedAIName, respawnAI) -/

def AI_NAMES : List String :=
  ["Cursor", "Zed", "VSCode", "Visual Studio", "Eclipse",
   "JetBrains", "XCode", "Sublime", "Neovim", "Emacs"]

def getUnusedAIName (ais : List AIPlayer) : String :=
  (AI_NAMES.find? fun n => !(ais.map fun ai => ai.name).contains n).getD "Cursor"

/-- respawnAI builds a fresh AI at a random position with a random color and
direction and an unused name; the caller immediately overwrites x and y. -/
def respawnAI (pos : Point) (hue direction : ℚ) (ais : List AIPlayer) : AIPlayer :=
  { x := pos.x, y := pos.y, score := AI_STARTING_SCORE,
    hue := hue, direction := direction, name := getUnusedAIName ais }

/-! ### Safe spawn search (utils.js: findSafeSpawnLocation)

getRandomPosition() draws are supplied by the stream draws : N -> Point;
attempt k of the first phase consumes draws k, the fallback initialisation
consumes draws 50 and fallback iteration i consumes draws (51 + i).
JS Infinity in the fallback minimum-distance accumulator is modelled by
Option Q with none standing for Infinity. -/

def isSafePos (f : ℚ → ℚ) (gs : GameState) (minDistance : ℚ) (pos : Point) : Bool :=
  (gs.aiPlayers.all fun ai =>
    !(getDistance f pos ai.pos < getSize f ai.score + minDistance)) &&
  (gs.playerCells.all fun cell =>
    !(getDistance f pos cell.pos < getSize f cell.score + minDistance))

def firstSafe (f : ℚ → ℚ) (draws : ℕ → Point) (gs : GameState) (minDistance : ℚ) :
    ℕ → ℕ → Option Point
  | 0, _ => none
  | fuel+1, k =>
    let pos := draws k
    if isSafePos f gs minDistance pos then some pos
    else firstSafe f draws gs minDistance fuel (k+1)

/-- Accumulates Math.min over the distances to all AIs then all player cells,
starting from Infinity. -/
def minDistToEntities (f : ℚ → ℚ) (gs : GameState) (pos : Point) : Option ℚ :=
  ((gs.aiPlayers.map fun ai => getDistance f pos ai.pos) ++
   (gs.playerCells.map fun cell => getDistance f pos cell.pos)).foldl
    (fun acc d => match acc with | none => some d | some a => some (min a d)) none

/-- minDistanceToPlayer > maxMinDistance, where none is Infinity. -/
def infGT (a b : Option ℚ) : Bool :=
  match a, b with
  | none, none => false
  | none, some _ => true
  | some _, none => false
  | some x, some y => decide (x > y)

/-- a is at most b, where none is Infinity. -/
def infLE (a b : Option ℚ) : Bool :=
  match a, b with
  | _, none => true
  | none, some _ => false
  | some x, some y => decide (x ≤ y)

def fallbackBest (f : ℚ → ℚ) (draws : ℕ → Point) (gs : GameState) :
    ℕ → ℕ → Point → Option ℚ → Point
  | 0, _, bestPos, _ => bestPos
  | fuel+1, k, bestPos, maxMinDistance =>
    let pos := draws k
    let minDistanceToPlayer := minDistToEntities f gs pos
    if infGT minDistanceToPlayer maxMinDistance then
      fallbackBest f draws gs fuel (k+1) pos minDistanceToPlayer
    else
      fallbackBest f draws gs fuel (k+1) bestPos maxMinDistance

def findSafeSpawnLocation (f : ℚ → ℚ) (draws : ℕ → Point) (gs : GameState)
    (minDistance : ℚ) : Point :=
  match firstSafe f draws gs minDistance 50 0 with
  | some pos => pos
  | none => fallbackBest f draws gs 20 51 (draws 50) (some 0)

/-- Modelled from the spec's words, for comparison with the source's
isSafePos: the spec describes the first phase as accepting a draw whose
distance to every existing AI and player cell strictly exceeds that entity's
radius plus minDistance, where the source accepts already at equality. -/
def isSafePosClaimed (f : ℚ → ℚ) (gs : GameState) (minDistance : ℚ) (pos : Point) : Bool :=
  (gs.aiPlayers.all fun ai =>
    getSize f ai.score + minDistance < getDistance f pos ai.pos) &&
  (gs.playerCells.all fun cell =>
    getSize f cell.score + minDistance < getDistance f pos cell.pos)

/-- Modelled from the spec's words: the search as the spec describes it,
identical to the source's search except for the strict acceptance test of
the first phase. -/
def firstSafeClaimed (f : ℚ → ℚ) (draws : ℕ → Point) (gs : GameState) (minDistance : ℚ) :
    ℕ → ℕ → Option Point
  | 0, _ => none
  | fuel+1, k =>
    let pos := draws k
    if isSafePosClaimed f gs minDistance pos then some pos
    else firstSafeClaimed f draws gs minDistance fuel (k+1)

def findSafeSpawnLocationClaimed (f : ℚ → ℚ) (draws : ℕ → Point) (gs : GameState)
    (minDistance : ℚ) : Point :=
  match firstSafeClaimed f draws gs minDistance 50 0 with
  | some pos => pos
  | none => fallbackBest f draws gs 20 51 (draws 50) (some 0)

/-! ### Food consumption (collisions.js: handleFoodCollisions)

Each cell filters the shared food list in order; the filter callback reads the
cell's live score, so food eaten earlier in the same pass already enlarges the
cell for the next food item. -/

def cellEatsFood (f : ℚ → ℚ) (pos : Point) : ℚ → List Food → ℚ × List Food
  | score, [] => (score, [])
  | score, fd :: rest =>
    if getDistance f pos fd.pos < getSize f score + FOOD_SIZE then
      cellEatsFood f pos (score + FOOD_SCORE) rest
    else
      let r := cellEatsFood f pos score rest
      (r.1, fd :: r.2)

def playerFoodPhase (f : ℚ → ℚ) : List Cell → List Food → List Cell × List Food
  | [], food => ([], food)
  | c :: cs, food =>
    let r := cellEatsFood f c.pos c.score food
    let rest := playerFoodPhase f cs r.2
    ({ c with score := r.1 } :: rest.1, rest.2)

def aiFoodPhase (f : ℚ → ℚ) : List AIPlayer → List Food → List AIPlayer × List Food
  | [], food => ([], food)
  | ai :: ais, food =>
    let r := cellEatsFood f ai.pos ai.score food
    let rest := aiFoodPhase f ais r.2
    ({ ai with score := r.1 } :: rest.1, rest.2)

def handleFoodCollisions (f : ℚ → ℚ) (gs : GameState) : GameState :=
  let pp := playerFoodPhase f gs.playerCells gs.food
  let ap := aiFoodPhase f gs.aiPlayers pp.2
  { playerCells := pp.1, aiPlayers := ap.1, food := ap.2 }

/-! ### The shared consumption decision (collisions.js)

Both resolvers decide an overlapping pair with the identical nested
conditional: the first entity eats when its size strictly exceeds
COLLISION_THRESHOLD times the other size, else the second eats under the
symmetric test, else nothing happens; no overlap, nothing happens. -/

inductive Verdict where
  | firstEats
  | secondEats
  | noEat
deriving DecidableEq, Repr

def collisionVerdict (distance size1 size2 : ℚ) : Verdict :=
  if distance < size1 + size2 then
    if size1 > size2 * COLLISION_THRESHOLD then .firstEats
    else if size2 > size1 * COLLISION_THRESHOLD then .secondEats
    else .noEat
  else .noEat

/-! ### Player vs AI collisions (collisions.js: handlePlayerAICollisions)

The scoring scan keeps: the live AI list (an AI that eats a player cell has
the gain added to its score immediately, in place), the sets of AI and player
indices queued for removal, and the scoreGains map from player-cell index to
queued gain (a Map keyed by index, embedded as an association list). -/

def lookupGain : List (ℕ × ℚ) → ℕ → ℚ
  | [], _ => 0
  | (k, v) :: rest, i => if k = i then v else lookupGain rest i

def setGain : List (ℕ × ℚ) → ℕ → ℚ → List (ℕ × ℚ)
  | [], i, v => [(i, v)]
  | (k, w) :: rest, i, v => if k = i then (i, v) :: rest else (k, w) :: setGain rest i v

structure PACScan where
  ais : List AIPlayer
  aiRemove : List ℕ
  playerRemove : List ℕ
  gains : List (ℕ × ℚ)
deriving DecidableEq, Repr

def paInnerStep (f : ℚ → ℚ) (playerCellIndex : ℕ) (playerCell : Cell)
    (st : PACScan) (aiIndex : ℕ) : PACScan :=
  if st.aiRemove.contains aiIndex then st
  else if st.playerRemove.contains playerCellIndex then st
  else
    match st.ais.get? aiIndex with
    | none => st
    | some ai =>
      let distance := getDistance f playerCell.pos ai.pos
      let playerSize := getSize f playerCell.score
      let aiSize := getSize f ai.score
      match collisionVerdict distance playerSize aiSize with
      | .firstEats =>
        { st with
          gains := setGain st.gains playerCellIndex
            (lookupGain st.gains playerCellIndex + ai.score + 100),
          aiRemove := aiIndex :: st.aiRemove }
      | .secondEats =>
        { st with
          ais := st.ais.set aiIndex { ai with score := ai.score + playerCell.score + 100 },
          playerRemove := playerCellIndex :: st.playerRemove }
      | .noEat => st

/-- The full scoring scan: every player cell against every AI index. -/
def paScan (f : ℚ → ℚ) (cells : List Cell) (ais : List AIPlayer) : PACScan :=
  (cells.zip (List.range cells.length)).foldl
    (fun st p => (List.range ais.length).foldl (paInnerStep f p.2 p.1) st)
    { ais := ais, aiRemove := [], playerRemove := [], gains := [] }

/-- Remove the queued indices highest first, as both resolvers do. -/
def removeDesc {α : Type} (idxs : List ℕ) (l : List α) : List α :=
  (sortDesc idxs).foldl (fun acc index => acc.eraseIdx index) l

/-- Apply each queued gain to the cell at its index unless that cell is
itself queued for removal. -/
def applyGains (playerRemove : List ℕ) : List (ℕ × ℚ) → List Cell → List Cell
  | [], cells => cells
  | (i, g) :: rest, cells =>
    applyGains playerRemove rest
      (if playerRemove.contains i then cells
       else match cells.get? i with
            | some c => cells.set i { c with score := c.score + g }
            | none => cells)

/-- Scan, then commit: remove eaten AIs, pay queued gains to surviving player
cells, remove eaten player cells.  The respawn check runs after this. -/
def paResolve (f : ℚ → ℚ) (gs : GameState) : GameState :=
  let scan := paScan f gs.playerCells gs.aiPlayers
  let ais := removeDesc scan.aiRemove scan.ais
  let cells := applyGains scan.playerRemove scan.gains gs.playerCells
  let cells := removeDesc scan.playerRemove cells
  { gs with playerCells := cells, aiPlayers := ais }

def handlePlayerAICollisions (f : ℚ → ℚ) (spawnDraws : ℕ → Point) (gs : GameState) :
    GameState :=
  let gs := paResolve f gs
  if gs.playerCells.length = 0 then
    let safePos := findSafeSpawnLocation f spawnDraws gs 100
    { gs with playerCells := gs.playerCells ++
        [{ x := safePos.x, y := safePos.y, score := STARTING_SCORE,
           velocityX := 0, velocityY := 0 }] }
  else gs

/-! ### AI vs AI collisions (collisions.js: handleAIAICollisions)

Gains are deferred on both sides here.  The inner loop breaks as soon as the
outer AI i is consumed by some j. -/

structure AAScan where
  remove : List ℕ
  gains : List (ℕ × ℚ)
deriving DecidableEq, Repr

def aiaiInner (f : ℚ → ℚ) (ais : List AIPlayer) (i : ℕ) :
    List ℕ → AAScan → AAScan
  | [], st => st
  | j :: js, st =>
    if st.remove.contains j then aiaiInner f ais i js st
    else
      match ais.get? i, ais.get? j with
      | some ai1, some ai2 =>
        let distance := getDistance f ai1.pos ai2.pos
        let ai1Size := getSize f ai1.score
        let ai2Size := getSize f ai2.score
        match collisionVerdict distance ai1Size ai2Size with
        | .firstEats =>
          aiaiInner f ais i js
            { remove := j :: st.remove,
              gains := setGain st.gains i (lookupGain st.gains i + ai2.score + 100) }
        | .secondEats =>
          { remove := i :: st.remove,
            gains := setGain st.gains j (lookupGain st.gains j + ai1.score + 100) }
        | .noEat => aiaiInner f ais i js st
      | _, _ => aiaiInner f ais i js st

def aiaiScan (f : ℚ → ℚ) (ais : List AIPlayer) : AAScan :=
  (List.range ais.length).foldl
    (fun st i =>
      if st.remove.contains i then st
      else aiaiInner f ais i (List.range' (i+1) (ais.length - (i+1))) st)
    { remove := [], gains := [] }

def applyGainsAI (remove : List ℕ) : List (ℕ × ℚ) → List AIPlayer → List AIPlayer
  | [], ais => ais
  | (i, g) :: rest, ais =>
    applyGainsAI remove rest
      (if remove.contains i then ais
       else match ais.get? i with
            | some ai => ais.set i { ai with score := ai.score + g }
            | none => ais)

def handleAIAICollisions (f : ℚ → ℚ) (gs : GameState) : GameState :=
  let scan := aiaiScan f gs.aiPlayers
  let ais := applyGainsAI scan.remove scan.gains gs.aiPlayers
  { gs with aiPlayers := removeDesc scan.remove ais }

/-! ### Population maintenance (collisions.js: respawnEntities)

Each while loop adds exactly one entity per iteration, so it runs
target - current iterations (none when already at or above target); the
iteration count is computed with truncated natural subtraction, matching the
loop guard.  The k-th new AI of one invocation gets its own safe-spawn draw
stream aiSpawnDraws k and random hue and direction. -/

def topUpFood (draws : ℕ → Point) (hues : ℕ → ℚ) : ℕ → List Food → List Food
  | 0, food => food
  | n+1, food =>
    topUpFood draws hues n
      (food ++ [{ x := (draws n).x, y := (draws n).y, hue := hues n }])

def topUpAI (f : ℚ → ℚ) (aiSpawnDraws : ℕ → ℕ → Point) (hues directions : ℕ → ℚ) :
    ℕ → GameState → GameState
  | 0, gs => gs
  | n+1, gs =>
    let safePos := findSafeSpawnLocation f (aiSpawnDraws n) gs 100
    let newAI := respawnAI safePos (hues n) (directions n) gs.aiPlayers
    topUpAI f aiSpawnDraws hues directions n
      { gs with aiPlayers := gs.aiPlayers ++ [newAI] }

def respawnEntities (f : ℚ → ℚ) (foodDraws : ℕ → Point) (foodHues : ℕ → ℚ)
    (aiSpawnDraws : ℕ → ℕ → Point) (aiHues aiDirections : ℕ → ℚ)
    (playerSpawnDraws : ℕ → Point) (gs : GameState) : GameState :=
  let gs :=
    { gs with food := topUpFood foodDraws foodHues (FOOD_COUNT - gs.food.length) gs.food }
  let gs := topUpAI f aiSpawnDraws aiHues aiDirections (AI_COUNT - gs.aiPlayers.length) gs
  if gs.playerCells.length = 0 then
    let safePos := findSafeSpawnLocation f playerSpawnDraws gs 100
    { gs with playerCells := gs.playerCells ++
        [{ x := safePos.x, y := safePos.y, score := STARTING_SCORE,
           velocityX := 0, velocityY := 0 }] }
  else gs

/-! ### The per-frame tick (game.js: gameLoop before rendering) -/

structure TickInputs where
  mouse : Point
  innerWidth : ℚ
  innerHeight : ℚ
  now : ℚ
  aiRolls : ℕ → ℚ
  aiNewDirs : ℕ → ℚ
  paSpawnDraws : ℕ → Point
  foodDraws : ℕ → Point
  foodHues : ℕ → ℚ
  aiSpawnDraws : ℕ → ℕ → Point
  aiHues : ℕ → ℚ
  aiDirections : ℕ → ℚ
  playerSpawnDraws : ℕ → Point

def checkCollisions (f : ℚ → ℚ) (inp : TickInputs) (gs : GameState) : GameState :=
  respawnEntities f inp.foodDraws inp.foodHues inp.aiSpawnDraws inp.aiHues
    inp.aiDirections inp.playerSpawnDraws
    (handleAIAICollisions f
      (handlePlayerAICollisions f inp.paSpawnDraws
        (handleFoodCollisions f gs)))

def gameTick (f cosF sinF : ℚ → ℚ) (inp : TickInputs) (gs : GameState) : GameState :=
  let gs := updatePlayer f inp.mouse inp.innerWidth inp.innerHeight inp.now gs
  let gs := { gs with aiPlayers := updateAI f cosF sinF inp.aiRolls inp.aiNewDirs gs.aiPlayers }
  checkCollisions f inp gs

/-! ### Concrete states used in the counterexamples and witnesses below -/

def C1smallCell : Cell := { x := 0, y := 0, score := 100, velocityX := 0, velocityY := 0 }

def C1bigCell : Cell := { x := 0, y := 0, score := 3481, velocityX := 0, velocityY := 0 }

def C1ai : AIPlayer :=
  { x := 0, y := 0, score := 2401, hue := 0, direction := 0, name := "Cursor" }

def C1state : GameState :=
  { playerCells := [C1smallCell, C1bigCell], aiPlayers := [C1ai], food := [] }

def C1scanStart : PACScan := { ais := [C1ai], aiRemove := [], playerRemove := [], gains := [] }

def C4cell : Cell := { x := 0, y := 0, score := 100, velocityX := 0, velocityY := 0 }

def C4state : GameState := { playerCells := [C4cell], aiPlayers := [], food := [] }

def C3cellA : Cell := { x := 0, y := 0, score := 100, velocityX := 1, velocityY := 0 }

def C3cellB : Cell := { x := 10, y := 0, score := 300, velocityX := 0, velocityY := 2 }

def C3cellC : Cell := { x := 5, y := 5, score := 50, velocityX := 0, velocityY := 0 }

def C3cells : List Cell := [C3cellA, C3cellB, C3cellC]

def C8ai : AIPlayer := { x := 0, y := 0, score := 0, hue := 0, direction := 0, name := "Zed" }

def C8state : GameState := { playerCells := [], aiPlayers := [C8ai], food := [] }

def C8draws : ℕ → Point := fun n => if n = 0 then ⟨120, 0⟩ else ⟨200, 0⟩

def C7inp : TickInputs :=
  { mouse := ⟨0, 0⟩, innerWidth := 1024, innerHeight := 768, now := 0,
    aiRolls := fun _ => 1, aiNewDirs := fun _ => 0,
    paSpawnDraws := fun _ => ⟨0, 0⟩, foodDraws := fun _ => ⟨0, 0⟩,
    foodHues := fun _ => 0, aiSpawnDraws := fun _ _ => ⟨0, 0⟩,
    aiHues := fun _ => 0, aiDirections := fun _ => 0,
    playerSpawnDraws := fun _ => ⟨0, 0⟩ }

def C7state : GameState :=
  { playerCells := [{ x := 0, y := 0, score := 100, velocityX := 0, velocityY := 0 }],
    aiPlayers := [], food := [] }

/-! ## Claim C7: stage-by-stage cell-count lemmas -/

lemma playerFoodPhase_length (f : ℚ → ℚ) :
    ∀ (cs : List Cell) (food : List Food), (playerFoodPhase f cs food).1.length = cs.length := by
  intro cs
  induction cs with
  | nil =>
    intro food
    rfl
  | cons c rest ih =>
    intro food
    simp [playerFoodPhase, ih]

lemma handleFoodCollisions_playerLength (f : ℚ → ℚ) (gs : GameState) :
    (handleFoodCollisions f gs).playerCells.length = gs.playerCells.length := by
  unfold handleFoodCollisions
  simp [playerFoodPhase_length]

lemma applyGains_length (remove : List ℕ) :
    ∀ (g : List (ℕ × ℚ)) (cells : List Cell),
      (applyGains remove g cells).length = cells.length := by
  intro g
  induction g with
  | nil =>
    intro cells
    rfl
  | cons p rest ih =>
    intro cells
    obtain ⟨i, v⟩ := p
    rw [applyGains, ih]
    by_cases hc : remove.contains i = true
    · rw [if_pos hc]
    · rw [if_neg hc]
      cases hg : cells.get? i with
      | none => rfl
      | some c => simp

lemma foldl_eraseIdx_le {α : Type} : ∀ (idxs : List ℕ) (l : List α),
    (idxs.foldl (fun acc index => acc.eraseIdx index) l).length ≤ l.length := by
  intro idxs
  induction idxs with
  | nil =>
    intro l
    exact le_refl _
  | cons a rest ih =>
    intro l
    exact le_trans (ih (l.eraseIdx a)) (List.length_eraseIdx_le l a)

lemma removeDesc_le {α : Type} (idxs : List ℕ) (l : List α) :
    (removeDesc idxs l).length ≤ l.length :=
  foldl_eraseIdx_le _ l

lemma paResolve_playerLength_le (f : ℚ → ℚ) (gs : GameState) :
    (paResolve f gs).playerCells.length ≤ gs.playerCells.length := by
  unfold paResolve
  exact le_trans (removeDesc_le _ _) (le_of_eq (applyGains_length _ _ _))

lemma handlePlayerAICollisions_ge1 (f : ℚ → ℚ) (draws : ℕ → Point) (gs : GameState) :
    1 ≤ (handlePlayerAICollisions f draws gs).playerCells.length := by
  unfold handlePlayerAICollisions
  by_cases h : (paResolve f gs).playerCells.length = 0
  · rw [if_pos h]
    simp
  · rw [if_neg h]
    omega

lemma handlePlayerAICollisions_le (f : ℚ → ℚ) (draws : ℕ → Point) (gs : GameState)
    (n : ℕ) (hn : 1 ≤ n) (h : gs.playerCells.length ≤ n) :
    (handlePlayerAICollisions f draws gs).playerCells.length ≤ n := by
  unfold handlePlayerAICollisions
  have hle := paResolve_playerLength_le f gs
  by_cases h0 : (paResolve f gs).playerCells.length = 0
  · rw [if_pos h0]
    simp [h0]
    omega
  · rw [if_neg h0]
    omega

lemma handleAIAICollisions_playerCells (f : ℚ → ℚ) (gs : GameState) :
    (handleAIAICollisions f gs).playerCells = gs.playerCells := rfl

lemma topUpAI_playerCells (f : ℚ → ℚ) (s : ℕ → ℕ → Point) (hues dirs : ℕ → ℚ) :
    ∀ (n : ℕ) (gs : GameState), (topUpAI f s hues dirs n gs).playerCells = gs.playerCells := by
  intro n
  induction n with
  | zero =>
    intro gs
    rfl
  | succ k ih =>
    intro gs
    rw [topUpAI, ih]

lemma respawnEntities_keep (f : ℚ → ℚ) (fd : ℕ → Point) (fh : ℕ → ℚ)
    (asd : ℕ → ℕ → Point) (ah ad : ℕ → ℚ) (psd : ℕ → Point) (gs : GameState)
    (h1 : 1 ≤ gs.playerCells.length) :
    (respawnEntities f fd fh asd ah ad psd gs).playerCells = gs.playerCells := by
  unfold respawnEntities
  simp only [topUpAI_playerCells]
  rw [if_neg (by
    intro h0
    simp at h0
    rw [h0] at h1
    simp at h1)]
  rw [topUpAI_playerCells]

lemma respawnEntities_zero (f : ℚ → ℚ) (fd : ℕ → Point) (fh : ℕ → ℚ)
    (asd : ℕ → ℕ → Point) (ah ad : ℕ → ℚ) (psd : ℕ → Point) (gs : GameState)
    (h0 : gs.playerCells = []) :
    ((respawnEntities f fd fh asd ah ad psd gs).playerCells.map fun c => c.score)
      = [STARTING_SCORE] := by
  unfold respawnEntities
  simp only [topUpAI_playerCells]
  rw [if_pos (by simp [h0])]
  simp [h0]

lemma setPair_length (cells : List Cell) (i j : ℕ) (p : Cell × Cell) :
    (setPair cells i j p).length = cells.length := by
  simp [setPair]

lemma mergeElseBranch_length (cells : List Cell) (i j : ℕ) (ph : PairPhysics) :
    (mergeElseBranch cells i j ph).length = cells.length := by
  unfold mergeElseBranch
  by_cases h : ph.distance < ph.minDistance
  · have h1 : repulsionBranchFires ph = true := by
      simp [repulsionBranchFires, h]
    have h2 : looseAttractionFires ph = false := by
      simp [looseAttractionFires, lt_asymm h]
    simp only [h1, h2, if_true, Bool.false_eq_true, if_false]
    cases hci : cells.get? i with
    | none =>
      cases hcj : cells.get? j with
      | none => rfl
      | some c2 => rfl
    | some c1 =>
      cases hcj : cells.get? j with
      | none => rfl
      | some c2 => exact setPair_length cells i j _
  · have h1 : repulsionBranchFires ph = false := by
      simp [repulsionBranchFires, h]
    simp only [h1, Bool.false_eq_true, if_false]
    by_cases h2 : looseAttractionFires ph = true
    · simp only [h2, if_true]
      cases hci : cells.get? i with
      | none =>
        cases hcj : cells.get? j with
        | none => rfl
        | some c2 => rfl
      | some c1 =>
        cases hcj : cells.get? j with
        | none => rfl
        | some c2 => exact setPair_length cells i j _
    · rw [if_neg h2]

lemma pairStep_fst_length (f : ℚ → ℚ) (now : ℚ) (st : List Cell × List ℕ) (i j : ℕ) :
    (pairStep f now st i j).1.length = st.1.length := by
  unfold pairStep
  dsimp only
  split
  · rfl
  · split
    · split
      · split
        · rfl
        · exact setPair_length st.1 i j _
      · exact mergeElseBranch_length st.1 i j _
    · rfl

lemma pairStep_snd (f : ℚ → ℚ) (now : ℚ) (st : List Cell × List ℕ) (i j : ℕ) :
    (pairStep f now st i j).2 = st.2
    ∨ (pairStep f now st i j).2 = st.2 ++ [i, j] := by
  unfold pairStep
  dsimp only
  split
  · exact Or.inl rfl
  · split
    · split
      · split
        · exact Or.inr rfl
        · exact Or.inl rfl
      · exact Or.inl rfl
    · exact Or.inl rfl

lemma pairFoldInner_len (f : ℚ → ℚ) (now : ℚ) (i : ℕ) :
    ∀ (js : List ℕ) (st : List Cell × List ℕ),
      ((js.foldl (fun st2 j => pairStep f now st2 i j) st).1).length = st.1.length := by
  intro js
  induction js with
  | nil =>
    intro st
    rfl
  | cons j rest ih =>
    intro st
    rw [List.foldl_cons, ih, pairStep_fst_length]

lemma pairFoldInner_mem (f : ℚ → ℚ) (now : ℚ) (n i : ℕ) (hi : i < n) :
    ∀ (js : List ℕ) (st : List Cell × List ℕ),
      (∀ j ∈ js, j < n) → (∀ x ∈ st.2, x < n) →
      ∀ x ∈ (js.foldl (fun st2 j => pairStep f now st2 i j) st).2, x < n := by
  intro js
  induction js with
  | nil =>
    intro st _ hst
    exact hst
  | cons j rest ih =>
    intro st hjs hst
    rw [List.foldl_cons]
    refine ih _ (fun a ha => hjs a (List.mem_cons_of_mem _ ha)) ?_
    rcases pairStep_snd f now st i j with h | h
    · rw [h]
      exact hst
    · rw [h]
      intro x hx
      rcases List.mem_append.mp hx with hx | hx
      · exact hst x hx
      · simp only [List.mem_cons, List.mem_singleton] at hx
        rcases hx with rfl | rfl | hx
        · exact hi
        · exact hjs _ (List.mem_cons_self _ rest)
        · exact absurd hx (List.not_mem_nil _)

lemma computeMerge_len (f : ℚ → ℚ) (now : ℚ) (cells : List Cell) :
    (computeMergeCandidatesAndForces f now cells).1.length = cells.length := by
  unfold computeMergeCandidatesAndForces
  have hout : ∀ (is : List ℕ) (st : List Cell × List ℕ),
      ((is.foldl (fun st i =>
        if st.2.contains i then st
        else (List.range' (i+1) (cells.length - (i+1))).foldl
          (fun st2 j => pairStep f now st2 i j) st) st).1).length = st.1.length := by
    intro is
    induction is with
    | nil =>
      intro st
      rfl
    | cons a rest ih =>
      intro st
      rw [List.foldl_cons, ih]
      by_cases hc : st.2.contains a = true
      · rw [if_pos hc]
      · rw [if_neg hc, pairFoldInner_len]
  exact hout _ _

lemma computeMerge_mem (f : ℚ → ℚ) (now : ℚ) (cells : List Cell) :
    ∀ x ∈ (computeMergeCandidatesAndForces f now cells).2, x < cells.length := by
  unfold computeMergeCandidatesAndForces
  have hout : ∀ (is : List ℕ) (st : List Cell × List ℕ),
      (∀ a ∈ is, a < cells.length) → (∀ x ∈ st.2, x < cells.length) →
      ∀ x ∈ ((is.foldl (fun st i =>
        if st.2.contains i then st
        else (List.range' (i+1) (cells.length - (i+1))).foldl
          (fun st2 j => pairStep f now st2 i j) st) st).2), x < cells.length := by
    intro is
    induction is with
    | nil =>
      intro st _ hst
      exact hst
    | cons a rest ih =>
      intro st his hst
      rw [List.foldl_cons]
      refine ih _ (fun b hb => his b (List.mem_cons_of_mem _ hb)) ?_
      by_cases hc : st.2.contains a = true
      · rw [if_pos hc]
        exact hst
      · rw [if_neg hc]
        refine pairFoldInner_mem f now cells.length a
          (his a (List.mem_cons_self a rest)) _ st ?_ hst
        intro j hj
        rw [List.mem_range'_1] at hj
        omega
  refine hout _ _ ?_ ?_
  · intro a ha
    exact List.mem_range.mp ha
  · intro x hx
    exact absurd hx (List.not_mem_nil x)

/-! ## Evaluation lemmas for concrete runs -/

lemma ratSqrt_9 : ratSqrt 9 = 3 := by
  rw [ratSqrt_ofNat, show isqrt 9 = 3 by decide]; norm_num

lemma ratSqrt_100 : ratSqrt 100 = 10 := by
  rw [ratSqrt_ofNat, show isqrt 100 = 10 by decide]; norm_num

lemma ratSqrt_2401 : ratSqrt 2401 = 49 := by
  rw [ratSqrt_ofNat, show isqrt 2401 = 49 by decide]; norm_num

lemma ratSqrt_2601 : ratSqrt 2601 = 51 := by
  rw [ratSqrt_ofNat, show isqrt 2601 = 51 by decide]; norm_num

lemma ratSqrt_3481 : ratSqrt 3481 = 59 := by
  rw [ratSqrt_ofNat, show isqrt 3481 = 59 by decide]; norm_num

lemma ratSqrt_14400 : ratSqrt 14400 = 120 := by
  rw [ratSqrt_ofNat, show isqrt 14400 = 120 by decide]; norm_num

lemma ratSqrt_40000 : ratSqrt 40000 = 200 := by
  rw [ratSqrt_ofNat, show isqrt 40000 = 200 by decide]; norm_num

/-! ## Claim C1: deferred versus immediate mass gains in player-vs-AI

In the source the two winner directions are treated asymmetrically: a winning
player cell has its gain queued in the scoreGains map and paid after the scan,
but a winning AI receives ai.score += playerCell.score + 100 immediately,
inside the scan, before the remaining pairs are scored. -/

lemma lookupGain_setGain (g : List (ℕ × ℚ)) (k : ℕ) (v : ℚ) :
    lookupGain (setGain g k v) k = v := by
  induction g with
  | nil => simp [setGain, lookupGain]
  | cons p rest ih =>
    obtain ⟨a, b⟩ := p
    by_cases h : a = k
    · simp [setGain, lookupGain, h]
    · simp [setGain, lookupGain, h, ih]

/-- C1: refuted.  In the state C1state the AI (mass 2401, size 69) first eats
the small cell (mass 100): its own list entry is already 2601 when the scan
reaches the second pair, before all pairs have been scored.  The big cell
(mass 3481, size 79) then eats the fattened AI: the gain queued for it is
2701 = 2601 + 100, not loserMass + 100 = 2501 computed from the loser's mass
when the pass began, and its final mass is 6182.  Had the AI's gain been
queued as the claim states, the second pair would have compared size 79
against size 89 and the AI would not have been eaten at all. -/
theorem C1_counterexample :
    ((paScan ratSqrt C1state.playerCells C1state.aiPlayers).ais.map fun a => a.score) = [2601]
    ∧ (C1state.aiPlayers.map fun a => a.score) = [2401]
    ∧ lookupGain (paScan ratSqrt C1state.playerCells C1state.aiPlayers).gains 1 = 2701
    ∧ ((handlePlayerAICollisions ratSqrt (fun _ => ⟨0, 0⟩) C1state).playerCells.map
        fun c => c.score) = [6182]
    ∧ (2701 : ℚ) ≠ 2401 + 100 := by
  norm_num [paScan, paInnerStep, handlePlayerAICollisions, paResolve, C1state, C1smallCell,
    C1bigCell, C1ai, collisionVerdict, getDistance, getSize, Cell.pos, AIPlayer.pos,
    COLLISION_THRESHOLD, lookupGain, setGain, removeDesc, applyGains, sortDesc, insertDesc,
    ratSqrt_zero, ratSqrt_100, ratSqrt_2401, ratSqrt_3481, ratSqrt_2601,
    List.range_succ, STARTING_SCORE]

/-- C1 (amended): for every overlapping pair decided by the size threshold the
loser is queued for removal; when the winner is the player cell its gain
(the loser's mass plus the flat 100 bonus) is queued in the scoreGains map and
the AI list is untouched, but when the winner is the AI the gain is applied to
the AI's mass immediately during the scan, not deferred. -/
theorem C1_pair_scoring (f : ℚ → ℚ) (playerCellIndex aiIndex : ℕ) (playerCell : Cell)
    (st : PACScan) (ai : AIPlayer)
    (hai : st.ais.get? aiIndex = some ai)
    (hskipA : st.aiRemove.contains aiIndex = false)
    (hskipP : st.playerRemove.contains playerCellIndex = false) :
    (collisionVerdict (getDistance f playerCell.pos ai.pos) (getSize f playerCell.score)
        (getSize f ai.score) = Verdict.firstEats →
      (paInnerStep f playerCellIndex playerCell st aiIndex).ais = st.ais
      ∧ lookupGain (paInnerStep f playerCellIndex playerCell st aiIndex).gains playerCellIndex
          = lookupGain st.gains playerCellIndex + ai.score + 100
      ∧ (paInnerStep f playerCellIndex playerCell st aiIndex).aiRemove.contains aiIndex = true
      ∧ (paInnerStep f playerCellIndex playerCell st aiIndex).playerRemove = st.playerRemove)
    ∧ (collisionVerdict (getDistance f playerCell.pos ai.pos) (getSize f playerCell.score)
        (getSize f ai.score) = Verdict.secondEats →
      (paInnerStep f playerCellIndex playerCell st aiIndex).ais
        = st.ais.set aiIndex { ai with score := ai.score + playerCell.score + 100 }
      ∧ (paInnerStep f playerCellIndex playerCell st aiIndex).gains = st.gains
      ∧ (paInnerStep f playerCellIndex playerCell st aiIndex).playerRemove.contains
          playerCellIndex = true
      ∧ (paInnerStep f playerCellIndex playerCell st aiIndex).aiRemove = st.aiRemove) := by
  have hA : aiIndex ∉ st.aiRemove := by
    simpa using hskipA
  have hP : playerCellIndex ∉ st.playerRemove := by
    simpa using hskipP
  have hai2 : st.ais[aiIndex]? = some ai := by
    rw [← List.get?_eq_getElem?]
    exact hai
  constructor
  · intro hv
    simp [paInnerStep, hA, hP, hai2, hv, lookupGain_setGain]
  · intro hv
    simp [paInnerStep, hA, hP, hai2, hv]

/-- C1 witness: the amended theorem applied to the first pair of C1state,
where the AI is the winner. -/
theorem C1_pair_scoring_witness :
    C1scanStart.ais.get? 0 = some C1ai
    ∧ C1scanStart.aiRemove.contains 0 = false
    ∧ C1scanStart.playerRemove.contains 0 = false
    ∧ ((collisionVerdict (getDistance ratSqrt C1smallCell.pos C1ai.pos)
          (getSize ratSqrt C1smallCell.score) (getSize ratSqrt C1ai.score) = Verdict.firstEats →
        (paInnerStep ratSqrt 0 C1smallCell C1scanStart 0).ais = C1scanStart.ais
        ∧ lookupGain (paInnerStep ratSqrt 0 C1smallCell C1scanStart 0).gains 0
            = lookupGain C1scanStart.gains 0 + C1ai.score + 100
        ∧ (paInnerStep ratSqrt 0 C1smallCell C1scanStart 0).aiRemove.contains 0 = true
        ∧ (paInnerStep ratSqrt 0 C1smallCell C1scanStart 0).playerRemove
            = C1scanStart.playerRemove)
      ∧ (collisionVerdict (getDistance ratSqrt C1smallCell.pos C1ai.pos)
          (getSize ratSqrt C1smallCell.score) (getSize ratSqrt C1ai.score) = Verdict.secondEats →
        (paInnerStep ratSqrt 0 C1smallCell C1scanStart 0).ais
          = C1scanStart.ais.set 0 { C1ai with score := C1ai.score + C1smallCell.score + 100 }
        ∧ (paInnerStep ratSqrt 0 C1smallCell C1scanStart 0).gains = C1scanStart.gains
        ∧ (paInnerStep ratSqrt 0 C1smallCell C1scanStart 0).playerRemove.contains 0 = true
        ∧ (paInnerStep ratSqrt 0 C1smallCell C1scanStart 0).aiRemove = C1scanStart.aiRemove)) :=
  ⟨rfl, rfl, rfl, C1_pair_scoring ratSqrt 0 0 C1smallCell C1scanStart C1ai rfl rfl rfl⟩

/-! ## Claim C4: splitting below the threshold, at the cap, and above it -/

lemma map_score_set (l : List Cell) (i : ℕ) (c cNew : Cell) (h : l.get? i = some c) :
    ((l.set i cNew).map fun x => x.score).sum + c.score
      = (l.map fun x => x.score).sum + cNew.score := by
  induction l generalizing i with
  | nil => simp at h
  | cons a as ih =>
    cases i with
    | zero =>
      simp only [List.get?] at h
      injection h with h
      subst h
      simp [List.set]
      ring
    | succ n =>
      simp only [List.get?] at h
      have hih := ih n h
      simp only [List.set, List.map_cons, List.sum_cons]
      linarith

lemma sum_split_conserved (l : List Cell) (i : ℕ) (c p q : Cell)
    (hget : l.get? i = some c)
    (hp : p.score = c.score / 2) (hq : q.score = c.score / 2) :
    ((l.set i p ++ [q]).map fun x => x.score).sum = (l.map fun x => x.score).sum := by
  have h := map_score_set l i c p hget
  simp only [List.map_append, List.sum_append, List.map_cons, List.sum_cons,
    List.map_nil, List.sum_nil]
  linarith

/-- C4: refuted at one input.  With the pointer exactly at the viewport center
a split request on a cell of mass 100 at or above MIN_SPLIT_SCORE, with only
one of MAX_PLAYER_CELLS cells in play, still changes nothing: the direction
magnitude is zero and splitPlayerCell returns early. -/
theorem C4_counterexample :
    MIN_SPLIT_SCORE ≤ C4cell.score
    ∧ C4state.playerCells.length < MAX_PLAYER_CELLS
    ∧ splitPlayerCell ratSqrt ⟨512, 384⟩ 1024 768 99999 C4state 0 = C4state
    ∧ (C4state.playerCells.map fun c => c.score) = [100] := by
  refine ⟨by norm_num [MIN_SPLIT_SCORE, C4cell], by norm_num [MAX_PLAYER_CELLS, C4state],
    ?_, by simp [C4state, C4cell]⟩
  norm_num [splitPlayerCell, C4state, C4cell, MIN_SPLIT_SCORE, MAX_PLAYER_CELLS, ratSqrt_zero]

/-- C4 (amended): a split request on a cell below MIN_SPLIT_SCORE, or issued
at MAX_PLAYER_CELLS cells, leaves the state unchanged; a split request on a
cell at or above MIN_SPLIT_SCORE while below the cap, with a nonzero pointer
direction vector, replaces the cell by a half-mass parent and appends a
half-mass child, so the cell count grows by one and total player mass is
conserved. -/
theorem C4_split_mass (f : ℚ → ℚ) (mouse : Point) (innerWidth innerHeight now : ℚ)
    (gs : GameState) (i : ℕ) (cell : Cell)
    (hget : gs.playerCells.get? i = some cell) :
    ((cell.score < MIN_SPLIT_SCORE ∨ gs.playerCells.length ≥ MAX_PLAYER_CELLS) →
        splitPlayerCell f mouse innerWidth innerHeight now gs i = gs)
    ∧ (MIN_SPLIT_SCORE ≤ cell.score → gs.playerCells.length < MAX_PLAYER_CELLS →
        f ((mouse.x - innerWidth / 2) * (mouse.x - innerWidth / 2) +
           (mouse.y - innerHeight / 2) * (mouse.y - innerHeight / 2)) ≠ 0 →
        ∃ parent child : Cell,
          (splitPlayerCell f mouse innerWidth innerHeight now gs i).playerCells
            = gs.playerCells.set i parent ++ [child]
          ∧ parent.score = cell.score / 2
          ∧ child.score = cell.score / 2
          ∧ (splitPlayerCell f mouse innerWidth innerHeight now gs i).playerCells.length
            = gs.playerCells.length + 1
          ∧ ((splitPlayerCell f mouse innerWidth innerHeight now gs i).playerCells.map
              fun c => c.score).sum
            = (gs.playerCells.map fun c => c.score).sum) := by
  constructor
  · intro hguard
    unfold splitPlayerCell
    rw [hget]
    simp [if_pos hguard]
  · intro hscore hcount hdist
    have hguard : ¬(cell.score < MIN_SPLIT_SCORE ∨ gs.playerCells.length ≥ MAX_PLAYER_CELLS) := by
      push_neg
      exact ⟨hscore, hcount⟩
    unfold splitPlayerCell
    rw [hget]
    dsimp only
    rw [if_neg hguard, if_neg hdist]
    refine ⟨_, _, rfl, rfl, rfl, ?_, ?_⟩
    · simp
    · exact sum_split_conserved gs.playerCells i cell _ _ hget rfl rfl

/-- C4 witness: the amended theorem applied to C4state with the pointer 3
pixels right of center, so the direction magnitude is 3, not 0. -/
theorem C4_split_mass_witness :
    C4state.playerCells.get? 0 = some C4cell
    ∧ (((C4cell.score < MIN_SPLIT_SCORE ∨ C4state.playerCells.length ≥ MAX_PLAYER_CELLS) →
          splitPlayerCell ratSqrt ⟨515, 384⟩ 1024 768 99999 C4state 0 = C4state)
      ∧ (MIN_SPLIT_SCORE ≤ C4cell.score → C4state.playerCells.length < MAX_PLAYER_CELLS →
          ratSqrt ((515 - 1024 / 2) * (515 - 1024 / 2) +
            (384 - 768 / 2) * (384 - 768 / 2)) ≠ 0 →
          ∃ parent child : Cell,
            (splitPlayerCell ratSqrt ⟨515, 384⟩ 1024 768 99999 C4state 0).playerCells
              = C4state.playerCells.set 0 parent ++ [child]
            ∧ parent.score = C4cell.score / 2
            ∧ child.score = C4cell.score / 2
            ∧ (splitPlayerCell ratSqrt ⟨515, 384⟩ 1024 768 99999 C4state 0).playerCells.length
              = C4state.playerCells.length + 1
            ∧ ((splitPlayerCell ratSqrt ⟨515, 384⟩ 1024 768 99999 C4state 0).playerCells.map
                fun c => c.score).sum
              = (C4state.playerCells.map fun c => c.score).sum)) :=
  ⟨rfl, C4_split_mass ratSqrt ⟨515, 384⟩ 1024 768 99999 C4state 0 C4cell rfl⟩

/-! ## Claim C3: the deferred merge commit

The commit input is the cellsToMerge list collected by the scan; the commit
sorts it descending, removes duplicates keeping first occurrences, chains
maximal runs of consecutive indices and collapses each run into one cell. -/

lemma insertDesc_mem (x y : ℕ) (l : List ℕ) : y ∈ insertDesc x l ↔ y = x ∨ y ∈ l := by
  induction l with
  | nil => simp [insertDesc]
  | cons a as ih =>
    by_cases h : x ≥ a
    · simp [insertDesc, h]
    · simp only [insertDesc, if_neg h, List.mem_cons, ih]
      tauto

lemma insertDesc_pairwise (x : ℕ) (l : List ℕ) (h : l.Pairwise (· ≥ ·)) :
    (insertDesc x l).Pairwise (· ≥ ·) := by
  induction l with
  | nil => simp [insertDesc]
  | cons a as ih =>
    rcases List.pairwise_cons.mp h with ⟨ha, has⟩
    by_cases hx : x ≥ a
    · rw [insertDesc, if_pos hx]
      refine List.pairwise_cons.mpr ⟨?_, h⟩
      intro b hb
      rcases List.mem_cons.mp hb with rfl | hb
      · exact hx
      · exact le_trans (ha b hb) hx
    · rw [insertDesc, if_neg hx]
      refine List.pairwise_cons.mpr ⟨?_, ih has⟩
      intro b hb
      rcases (insertDesc_mem x b as).mp hb with rfl | hb
      · omega
      · exact ha b hb

lemma sortDesc_pairwise (l : List ℕ) : (sortDesc l).Pairwise (· ≥ ·) := by
  induction l with
  | nil => simp [sortDesc]
  | cons a as ih => exact insertDesc_pairwise a _ ih

lemma sortDesc_mem (x : ℕ) (l : List ℕ) : x ∈ sortDesc l ↔ x ∈ l := by
  induction l with
  | nil => simp [sortDesc]
  | cons a as ih => simp [sortDesc, insertDesc_mem, ih]

lemma sortDesc_length (l : List ℕ) : (sortDesc l).length = l.length := by
  have hi : ∀ (x : ℕ) (m : List ℕ), (insertDesc x m).length = m.length + 1 := by
    intro x m
    induction m with
    | nil => rfl
    | cons a as ih =>
      by_cases h : x ≥ a
      · simp [insertDesc, h]
      · simp [insertDesc, h, ih]
  induction l with
  | nil => rfl
  | cons a as ih => simp [sortDesc, hi, ih]

lemma dedupFirst_sublist (seen l : List ℕ) : List.Sublist (dedupFirst seen l) l := by
  induction l generalizing seen with
  | nil => simp [dedupFirst]
  | cons a as ih =>
    by_cases h : seen.contains a = true
    · rw [dedupFirst, if_pos h]
      exact (ih seen).trans (List.sublist_cons_self a as)
    · rw [dedupFirst, if_neg h]
      exact (ih (a :: seen)).cons₂ a

lemma dedupFirst_mem {x : ℕ} {seen l : List ℕ} (h : x ∈ dedupFirst seen l) : x ∈ l :=
  (dedupFirst_sublist seen l).mem h

lemma dedupFirst_nodup (l : List ℕ) : ∀ seen : List ℕ,
    (dedupFirst seen l).Nodup ∧ ∀ x ∈ dedupFirst seen l, x ∉ seen := by
  induction l with
  | nil =>
    intro seen
    simp [dedupFirst]
  | cons a as ih =>
    intro seen
    by_cases h : seen.contains a = true
    · rw [dedupFirst, if_pos h]
      exact ih seen
    · rw [dedupFirst, if_neg h]
      obtain ⟨hnd, hnot⟩ := ih (a :: seen)
      have hseen : a ∉ seen := by
        simpa using h
      refine ⟨List.nodup_cons.mpr ⟨?_, hnd⟩, ?_⟩
      · intro hmem
        exact hnot a hmem (List.mem_cons_self a seen)
      · intro x hx
        rcases List.mem_cons.mp hx with rfl | hx
        · exact hseen
        · intro hxs
          exact hnot x hx (List.mem_cons_of_mem a hxs)

lemma dedupFirst_ne_nil (a : ℕ) (l : List ℕ) : dedupFirst [] (a :: l) ≠ [] := by
  rw [dedupFirst]
  simp

lemma mergeUnique_pairwise_gt (marked : List ℕ) :
    (dedupFirst [] (sortDesc marked)).Pairwise (· > ·) := by
  have hge : (dedupFirst [] (sortDesc marked)).Pairwise (· ≥ ·) :=
    (sortDesc_pairwise marked).sublist (dedupFirst_sublist [] _)
  have hnd : (dedupFirst [] (sortDesc marked)).Nodup := (dedupFirst_nodup _ []).1
  exact (hge.and hnd).imp fun h => lt_of_le_of_ne h.1 (Ne.symm h.2)

lemma groupRunsAux_join (l : List ℕ) : ∀ cur, (groupRunsAux cur l).join = cur ++ l := by
  induction l with
  | nil =>
    intro cur
    simp [groupRunsAux]
  | cons x xs ih =>
    intro cur
    rw [groupRunsAux]
    by_cases h : (cur.getLast?.getD 0 : ℤ) - (x : ℤ) = 1
    · rw [if_pos h, ih]
      simp
    · rw [if_neg h]
      simp [ih]

lemma groupRunsAux_head (l : List ℕ) : ∀ cur, cur ≠ [] →
    ∃ g gs, groupRunsAux cur l = g :: gs ∧ g.head? = cur.head? := by
  induction l with
  | nil =>
    intro cur _
    exact ⟨cur, [], rfl, rfl⟩
  | cons x xs ih =>
    intro cur h
    rw [groupRunsAux]
    by_cases hc : (cur.getLast?.getD 0 : ℤ) - (x : ℤ) = 1
    · rw [if_pos hc]
      obtain ⟨g, gs, heq, hh⟩ := ih (cur ++ [x]) (by simp)
      refine ⟨g, gs, heq, ?_⟩
      rw [hh]
      cases cur with
      | nil => exact absurd rfl h
      | cons c cs => simp
    · rw [if_neg hc]
      exact ⟨cur, _, rfl, rfl⟩

lemma groupRunsAux_runs (l : List ℕ) : ∀ cur, cur ≠ [] →
    List.Chain' (fun a b => a = b + 1) cur →
    ∀ g ∈ groupRunsAux cur l, g ≠ [] ∧ List.Chain' (fun a b => a = b + 1) g := by
  induction l with
  | nil =>
    intro cur h hch g hg
    simp only [groupRunsAux, List.mem_singleton] at hg
    subst hg
    exact ⟨h, hch⟩
  | cons x xs ih =>
    intro cur h hch g hg
    rw [groupRunsAux] at hg
    by_cases hc : (cur.getLast?.getD 0 : ℤ) - (x : ℤ) = 1
    · rw [if_pos hc] at hg
      refine ih (cur ++ [x]) (by simp) ?_ g hg
      rw [List.chain'_append]
      refine ⟨hch, List.chain'_singleton x, ?_⟩
      intro a ha b hb
      simp only [List.head?_cons, Option.mem_def, Option.some.injEq] at hb
      subst hb
      have hA : cur.getLast?.getD 0 = a := by
        rw [ha]
        rfl
      omega
    · rw [if_neg hc] at hg
      rcases List.mem_cons.mp hg with rfl | hg
      · exact ⟨h, hch⟩
      · exact ih [x] (by simp) (List.chain'_singleton x) g hg

lemma groupRunsAux_gaps (l : List ℕ) : ∀ cur, cur ≠ [] →
    List.Chain' (fun g1 g2 => g1.getLast?.getD 0 ≠ g2.head?.getD 0 + 1)
      (groupRunsAux cur l) := by
  induction l with
  | nil =>
    intro cur _
    simp [groupRunsAux]
  | cons x xs ih =>
    intro cur h
    rw [groupRunsAux]
    by_cases hc : (cur.getLast?.getD 0 : ℤ) - (x : ℤ) = 1
    · rw [if_pos hc]
      exact ih (cur ++ [x]) (by simp)
    · rw [if_neg hc]
      rw [List.chain'_cons']
      refine ⟨?_, ih [x] (by simp)⟩
      intro g hg
      obtain ⟨g0, gs0, heq, hh⟩ := groupRunsAux_head xs [x] (by simp)
      rw [heq] at hg
      simp only [List.head?_cons, Option.mem_def, Option.some.injEq] at hg
      subst hg
      rw [hh]
      simp only [List.head?_cons, Option.getD_some]
      omega

lemma groupConsecutive_join (u : List ℕ) : (groupConsecutiveIndices u).join = u := by
  cases u with
  | nil => rfl
  | cons x xs =>
    rw [groupConsecutiveIndices, groupRunsAux_join]
    rfl

lemma groupConsecutive_runs (u : List ℕ) :
    ∀ g ∈ groupConsecutiveIndices u, g ≠ [] ∧ List.Chain' (fun a b => a = b + 1) g := by
  cases u with
  | nil =>
    intro g hg
    simp [groupConsecutiveIndices] at hg
  | cons x xs => exact groupRunsAux_runs xs [x] (by simp) (List.chain'_singleton x)

lemma groupConsecutive_gaps (u : List ℕ) :
    List.Chain' (fun g1 g2 => g1.getLast?.getD 0 ≠ g2.head?.getD 0 + 1)
      (groupConsecutiveIndices u) := by
  cases u with
  | nil => simp [groupConsecutiveIndices]
  | cons x xs => exact groupRunsAux_gaps xs [x] (by simp)

/-! A descending run of consecutive indices is (range' b m).reverse; the
commit lemmas below characterise mergeCellGroup on such a run. -/

lemma descRun_cons (b m : ℕ) :
    (List.range' b (m+1)).reverse = (b + m) :: (List.range' b m).reverse := by
  rw [List.range'_concat]
  simp

lemma descRun_pairwise (b m : ℕ) : (List.range' b m).reverse.Pairwise (· > ·) := by
  rw [List.pairwise_reverse]
  exact List.pairwise_lt_range' b m

lemma sortDesc_of_pairwise (l : List ℕ) (h : l.Pairwise (· ≥ ·)) : sortDesc l = l := by
  induction l with
  | nil => rfl
  | cons a as ih =>
    rcases List.pairwise_cons.mp h with ⟨ha, has⟩
    rw [sortDesc, ih has]
    cases as with
    | nil => rfl
    | cons b bs => rw [insertDesc, if_pos (ha b (List.mem_cons_self b bs))]

lemma descRun_filterMap (cells : List Cell) : ∀ m b, b + m ≤ cells.length →
    (List.range' b m).reverse.filterMap (fun index => cells.get? index)
      = ((cells.drop b).take m).reverse := by
  intro m
  induction m with
  | zero =>
    intro b _
    simp
  | succ n ih =>
    intro b h
    rw [descRun_cons, List.filterMap_cons]
    have hbn : b + n < cells.length := by omega
    obtain ⟨c, hc⟩ : ∃ c, cells.get? (b + n) = some c := by
      rw [List.get?_eq_getElem?]
      exact ⟨cells[b+n], List.getElem?_eq_getElem hbn⟩
    rw [hc, ih b (by omega), List.take_succ]
    have hdropget : (cells.drop b)[n]? = some c := by
      rw [List.getElem?_drop]
      rw [← List.get?_eq_getElem?]
      exact hc
    rw [hdropget]
    simp

lemma eraseRun (b : ℕ) : ∀ (m : ℕ) (cells : List Cell), b + m ≤ cells.length →
    (List.range' b m).reverse.foldl (fun cs index => cs.eraseIdx index) cells
      = cells.take b ++ cells.drop (b + m) := by
  intro m
  induction m with
  | zero =>
    intro cells _
    simp
  | succ n ih =>
    intro cells h
    rw [descRun_cons, List.foldl_cons]
    have herase : cells.eraseIdx (b + n) = cells.take (b + n) ++ cells.drop (b + n + 1) := by
      rw [List.eraseIdx_eq_take_drop_succ]
    rw [herase]
    have hlen : (cells.take (b + n)).length = b + n := by
      rw [List.length_take]
      omega
    rw [ih (cells.take (b + n) ++ cells.drop (b + n + 1)) (by
      rw [List.length_append, hlen, List.length_drop]
      omega)]
    have hdrop : ∀ (L1 L2 : List Cell) (k : ℕ), L1.length = k → (L1 ++ L2).drop k = L2 := by
      intro L1 L2 k hk
      subst hk
      exact List.drop_left L1 L2
    congr 1
    · rw [List.take_append_of_le_length (by omega), List.take_take, Nat.min_eq_left (by omega)]
    · rw [hdrop _ _ _ hlen]
      have harith : b + n + 1 = b + (n + 1) := by omega
      rw [harith]

lemma mergeCellGroup_run (cells : List Cell) (b m : ℕ) (hbm : b + m ≤ cells.length) :
    mergeCellGroup cells ((List.range' b m).reverse)
      = cells.take b ++ cells.drop (b + m)
        ++ [{ x := (((cells.drop b).take m).map fun c => c.x * c.score).sum
                / (((cells.drop b).take m).map fun c => c.score).sum,
              y := (((cells.drop b).take m).map fun c => c.y * c.score).sum
                / (((cells.drop b).take m).map fun c => c.score).sum,
              score := (((cells.drop b).take m).map fun c => c.score).sum,
              velocityX := (((cells.drop b).take m).map fun c => c.velocityX * c.score).sum
                / (((cells.drop b).take m).map fun c => c.score).sum,
              velocityY := (((cells.drop b).take m).map fun c => c.velocityY * c.score).sum
                / (((cells.drop b).take m).map fun c => c.score).sum,
              splitTime := 0 }] := by
  unfold mergeCellGroup
  rw [descRun_filterMap cells m b hbm,
    sortDesc_of_pairwise _ ((descRun_pairwise b m).imp fun h => le_of_lt h),
    eraseRun b m cells hbm]
  simp [List.map_reverse, List.sum_reverse]

/-- C3: the marked merge indices, after the descending sort and the Set
deduplication, are partitioned by groupConsecutiveIndices into maximal runs of
consecutive integers (the concatenation of the groups is the whole index list,
the list is strictly descending, every group is a nonempty chain of
consecutive indices, and adjacent groups never continue the run), and the
commit replaces each in-range run by one cell whose mass is the exact sum of
the group's masses, whose position and velocity are the mass-weighted
averages, and whose splitTime is 0. -/
theorem C3_merge_commit (marked : List ℕ) (cells : List Cell) (b m : ℕ)
    (hm : 0 < m) (hbm : b + m ≤ cells.length) :
    (groupConsecutiveIndices (dedupFirst [] (sortDesc marked))).join
        = dedupFirst [] (sortDesc marked)
    ∧ (dedupFirst [] (sortDesc marked)).Pairwise (· > ·)
    ∧ (∀ g ∈ groupConsecutiveIndices (dedupFirst [] (sortDesc marked)),
        g ≠ [] ∧ List.Chain' (fun a b => a = b + 1) g)
    ∧ List.Chain' (fun g1 g2 => g1.getLast?.getD 0 ≠ g2.head?.getD 0 + 1)
        (groupConsecutiveIndices (dedupFirst [] (sortDesc marked)))
    ∧ mergeCellGroup cells ((List.range' b m).reverse)
        = cells.take b ++ cells.drop (b + m)
          ++ [{ x := (((cells.drop b).take m).map fun c => c.x * c.score).sum
                  / (((cells.drop b).take m).map fun c => c.score).sum,
                y := (((cells.drop b).take m).map fun c => c.y * c.score).sum
                  / (((cells.drop b).take m).map fun c => c.score).sum,
                score := (((cells.drop b).take m).map fun c => c.score).sum,
                velocityX := (((cells.drop b).take m).map fun c => c.velocityX * c.score).sum
                  / (((cells.drop b).take m).map fun c => c.score).sum,
                velocityY := (((cells.drop b).take m).map fun c => c.velocityY * c.score).sum
                  / (((cells.drop b).take m).map fun c => c.score).sum,
                splitTime := 0 }] :=
  ⟨groupConsecutive_join _, mergeUnique_pairwise_gt marked, groupConsecutive_runs _,
   groupConsecutive_gaps _, mergeCellGroup_run cells b m hbm⟩

/-- C3 witness: the commit theorem applied to a marked pair of index-adjacent
cells among three. -/
theorem C3_merge_commit_witness :
    (0 : ℕ) < 2
    ∧ 0 + 2 ≤ C3cells.length
    ∧ ((groupConsecutiveIndices (dedupFirst [] (sortDesc [0, 1]))).join
          = dedupFirst [] (sortDesc [0, 1])
      ∧ (dedupFirst [] (sortDesc [0, 1])).Pairwise (· > ·)
      ∧ (∀ g ∈ groupConsecutiveIndices (dedupFirst [] (sortDesc [0, 1])),
          g ≠ [] ∧ List.Chain' (fun a b => a = b + 1) g)
      ∧ List.Chain' (fun g1 g2 => g1.getLast?.getD 0 ≠ g2.head?.getD 0 + 1)
          (groupConsecutiveIndices (dedupFirst [] (sortDesc [0, 1])))
      ∧ mergeCellGroup C3cells ((List.range' 0 2).reverse)
          = C3cells.take 0 ++ C3cells.drop (0 + 2)
            ++ [{ x := (((C3cells.drop 0).take 2).map fun c => c.x * c.score).sum
                    / (((C3cells.drop 0).take 2).map fun c => c.score).sum,
                  y := (((C3cells.drop 0).take 2).map fun c => c.y * c.score).sum
                    / (((C3cells.drop 0).take 2).map fun c => c.score).sum,
                  score := (((C3cells.drop 0).take 2).map fun c => c.score).sum,
                  velocityX := (((C3cells.drop 0).take 2).map fun c => c.velocityX * c.score).sum
                    / (((C3cells.drop 0).take 2).map fun c => c.score).sum,
                  velocityY := (((C3cells.drop 0).take 2).map fun c => c.velocityY * c.score).sum
                    / (((C3cells.drop 0).take 2).map fun c => c.score).sum,
                  splitTime := 0 }]) :=
  ⟨by norm_num, by norm_num [C3cells],
   C3_merge_commit [0, 1] C3cells 0 2 (by norm_num) (by norm_num [C3cells])⟩

/-! ## Claim C8: the safe spawn search -/

lemma infLE_refl (a : Option ℚ) : infLE a a = true := by
  cases a <;> simp [infLE]

lemma infLE_trans {a b c : Option ℚ} (h1 : infLE a b = true) (h2 : infLE b c = true) :
    infLE a c = true := by
  cases a <;> cases b <;> cases c <;> simp [infLE] at * <;> linarith

lemma infGT_to_le {a b : Option ℚ} (h : infGT a b = true) : infLE b a = true := by
  cases a <;> cases b <;> simp [infGT, infLE] at * <;> linarith

lemma not_infGT_to_le {a b : Option ℚ} (h : infGT a b = false) : infLE a b = true := by
  cases a <;> cases b <;> simp [infGT, infLE] at * <;> linarith

lemma foldl_min_nonneg (ds : List ℚ) (hall : ∀ d ∈ ds, 0 ≤ d) :
    ∀ acc : Option ℚ, infLE (some 0) acc = true →
      infLE (some 0)
        (ds.foldl (fun acc d => match acc with | none => some d | some a => some (min a d))
          acc) = true := by
  induction ds with
  | nil => exact fun acc h => h
  | cons d rest ih =>
    intro acc hacc
    simp only [List.foldl]
    refine ih (fun x hx => hall x (List.mem_cons_of_mem _ hx)) _ ?_
    cases acc with
    | none =>
      simpa [infLE] using hall d (List.mem_cons_self _ _)
    | some a =>
      simp only [infLE, decide_eq_true_eq] at hacc ⊢
      exact le_min hacc (hall d (List.mem_cons_self _ _))

lemma minDist_nonneg (f : ℚ → ℚ) (hf : ∀ q, 0 ≤ f q) (gs : GameState) (pos : Point) :
    infLE (some 0) (minDistToEntities f gs pos) = true := by
  unfold minDistToEntities
  refine foldl_min_nonneg _ ?_ none (by simp [infLE])
  intro d hd
  rcases List.mem_append.mp hd with h | h
  · rcases List.mem_map.mp h with ⟨ai, _, rfl⟩
    exact hf _
  · rcases List.mem_map.mp h with ⟨c, _, rfl⟩
    exact hf _

lemma firstSafe_found (f : ℚ → ℚ) (draws : ℕ → Point) (gs : GameState) (minD : ℚ) :
    ∀ (fuel start k : ℕ), start ≤ k → k < start + fuel →
      isSafePos f gs minD (draws k) = true →
      (∀ j, start ≤ j → j < k → isSafePos f gs minD (draws j) = false) →
      firstSafe f draws gs minD fuel start = some (draws k) := by
  intro fuel
  induction fuel with
  | zero =>
    intro start k h1 h2
    omega
  | succ n ih =>
    intro start k h1 h2 hsafe hmin
    simp only [firstSafe]
    by_cases hs : isSafePos f gs minD (draws start) = true
    · rw [if_pos hs]
      have hk : start = k := by
        by_contra hne
        have hlt : start < k := lt_of_le_of_ne h1 hne
        have hfalse := hmin start le_rfl hlt
        rw [hfalse] at hs
        exact Bool.noConfusion hs
      rw [hk]
    · rw [if_neg hs]
      have hk : start < k := by
        rcases lt_or_eq_of_le h1 with h | h
        · exact h
        · rw [h] at hs
          exact absurd hsafe hs
      exact ih (start+1) k (by omega) (by omega) hsafe
        (fun j hj1 hj2 => hmin j (by omega) hj2)

lemma firstSafe_none (f : ℚ → ℚ) (draws : ℕ → Point) (gs : GameState) (minD : ℚ) :
    ∀ (fuel start : ℕ),
      (∀ k, start ≤ k → k < start + fuel → isSafePos f gs minD (draws k) = false) →
      firstSafe f draws gs minD fuel start = none := by
  intro fuel
  induction fuel with
  | zero =>
    intro start _
    rfl
  | succ n ih =>
    intro start hall
    simp only [firstSafe]
    rw [if_neg (by simp [hall start le_rfl (by omega)])]
    exact ih (start+1) fun k h1 h2 => hall k (by omega) (by omega)

lemma fallbackBest_inv (f : ℚ → ℚ) (draws : ℕ → Point) (gs : GameState) :
    ∀ (fuel k : ℕ) (best : Point) (maxMin : Option ℚ),
      infLE maxMin (minDistToEntities f gs best) = true →
      infLE maxMin (minDistToEntities f gs (fallbackBest f draws gs fuel k best maxMin)) = true
      ∧ ∀ j, k ≤ j → j < k + fuel →
          infLE (minDistToEntities f gs (draws j))
            (minDistToEntities f gs (fallbackBest f draws gs fuel k best maxMin)) = true := by
  intro fuel
  induction fuel with
  | zero =>
    intro k best maxMin h
    exact ⟨h, fun j h1 h2 => by omega⟩
  | succ n ih =>
    intro k best maxMin h
    simp only [fallbackBest]
    by_cases hgt : infGT (minDistToEntities f gs (draws k)) maxMin = true
    · rw [if_pos hgt]
      have hstep := ih (k+1) (draws k) (minDistToEntities f gs (draws k)) (infLE_refl _)
      refine ⟨infLE_trans (infGT_to_le hgt) hstep.1, ?_⟩
      intro j hj1 hj2
      rcases lt_or_eq_of_le hj1 with hj | hj
      · exact hstep.2 j (by omega) (by omega)
      · rw [← hj]
        exact hstep.1
    · rw [if_neg hgt]
      have hle : infGT (minDistToEntities f gs (draws k)) maxMin = false :=
        Bool.eq_false_iff.mpr hgt
      have hstep := ih (k+1) best maxMin h
      refine ⟨hstep.1, ?_⟩
      intro j hj1 hj2
      rcases lt_or_eq_of_le hj1 with hj | hj
      · exact hstep.2 j (by omega) (by omega)
      · rw [← hj]
        exact infLE_trans (not_infGT_to_le hle) hstep.1

lemma fallbackBest_mem (f : ℚ → ℚ) (draws : ℕ → Point) (gs : GameState) :
    ∀ (fuel k : ℕ) (best : Point) (maxMin : Option ℚ),
      fallbackBest f draws gs fuel k best maxMin = best
      ∨ ∃ j, k ≤ j ∧ j < k + fuel ∧ fallbackBest f draws gs fuel k best maxMin = draws j := by
  intro fuel
  induction fuel with
  | zero =>
    intro k best maxMin
    exact Or.inl rfl
  | succ n ih =>
    intro k best maxMin
    simp only [fallbackBest]
    by_cases hgt : infGT (minDistToEntities f gs (draws k)) maxMin = true
    · rw [if_pos hgt]
      rcases ih (k+1) (draws k) (minDistToEntities f gs (draws k)) with h | ⟨j, h1, h2, h3⟩
      · exact Or.inr ⟨k, le_rfl, by omega, h⟩
      · exact Or.inr ⟨j, by omega, by omega, h3⟩
    · rw [if_neg hgt]
      rcases ih (k+1) best maxMin with h | ⟨j, h1, h2, h3⟩
      · exact Or.inl h
      · exact Or.inr ⟨j, by omega, by omega, h3⟩

/-- C8: refuted at the acceptance boundary, with an observable divergence.
The first phase of the source accepts a draw when no entity satisfies
distance < size + minDistance, that is when every distance is at least the
clearance, not strictly above it.  With one AI of mass 0 (radius 20) at the
origin, draw 0 at (120, 0) and every later draw at (200, 0), the source
returns (120, 0), whose distance to the AI is exactly radius + minDistance =
120 and so does not exceed the clearance; the search described by the claim
(findSafeSpawnLocationClaimed, the same search with the stated strict test)
rejects that boundary draw and returns (200, 0), which does exceed the
clearance.  The two procedures disagree on this input. -/
theorem C8_counterexample :
    findSafeSpawnLocation ratSqrt C8draws C8state 100 = ⟨120, 0⟩
    ∧ findSafeSpawnLocationClaimed ratSqrt C8draws C8state 100 = ⟨200, 0⟩
    ∧ ¬ (getSize ratSqrt C8ai.score + 100 < getDistance ratSqrt ⟨120, 0⟩ C8ai.pos)
    ∧ getSize ratSqrt C8ai.score + 100 < getDistance ratSqrt ⟨200, 0⟩ C8ai.pos := by
  refine ⟨?_, ?_, ?_, ?_⟩
  · unfold findSafeSpawnLocation
    rw [show (50:ℕ) = 49 + 1 from rfl]
    simp only [firstSafe]
    rw [if_pos ?hsafe]
    case hsafe =>
      norm_num [isSafePos, C8state, C8ai, C8draws, getDistance, getSize,
        AIPlayer.pos, ratSqrt_14400, ratSqrt_zero]
    rfl
  · unfold findSafeSpawnLocationClaimed
    rw [show (50:ℕ) = 48 + 1 + 1 from rfl]
    simp only [firstSafeClaimed]
    rw [if_neg ?hreject]
    case hreject =>
      norm_num [isSafePosClaimed, C8state, C8ai, C8draws, getDistance, getSize,
        AIPlayer.pos, ratSqrt_14400, ratSqrt_zero]
    rw [if_pos ?haccept]
    case haccept =>
      norm_num [isSafePosClaimed, C8state, C8ai, C8draws, getDistance, getSize,
        AIPlayer.pos, ratSqrt_40000, ratSqrt_zero]
    rfl
  · norm_num [C8ai, getDistance, getSize, AIPlayer.pos, ratSqrt_14400, ratSqrt_zero]
  · norm_num [C8ai, getDistance, getSize, AIPlayer.pos, ratSqrt_40000, ratSqrt_zero]

/-- C8 (amended): findSafeSpawnLocation always returns a position.  It makes
at most 50 first-phase draws and returns the first whose distance to every AI
and player cell is at least (not strictly greater than) that entity's radius
plus minDistance; if none of the 50 qualifies it samples 20 more random
points and returns a point whose minimum distance to any entity is at least
that of each of the 20 samples. -/
theorem C8_spawn_search (f : ℚ → ℚ) (draws : ℕ → Point) (gs : GameState) (minD : ℚ)
    (hf : ∀ q, 0 ≤ f q) :
    (∀ k, k < 50 → isSafePos f gs minD (draws k) = true →
      (∀ j, j < k → isSafePos f gs minD (draws j) = false) →
      findSafeSpawnLocation f draws gs minD = draws k)
    ∧ ((∀ k, k < 50 → isSafePos f gs minD (draws k) = false) →
      (findSafeSpawnLocation f draws gs minD = draws 50
        ∨ ∃ j, 51 ≤ j ∧ j < 71 ∧ findSafeSpawnLocation f draws gs minD = draws j)
      ∧ ∀ j, 51 ≤ j → j < 71 →
          infLE (minDistToEntities f gs (draws j))
            (minDistToEntities f gs (findSafeSpawnLocation f draws gs minD)) = true) := by
  constructor
  · intro k hk hsafe hmin
    unfold findSafeSpawnLocation
    rw [firstSafe_found f draws gs minD 50 0 k (by omega) (by omega) hsafe
      (fun j _ hj => hmin j hj)]
  · intro hall
    have hnone : firstSafe f draws gs minD 50 0 = none :=
      firstSafe_none f draws gs minD 50 0 fun k _ hk => hall k (by omega)
    have hres : findSafeSpawnLocation f draws gs minD
        = fallbackBest f draws gs 20 51 (draws 50) (some 0) := by
      unfold findSafeSpawnLocation
      rw [hnone]
    constructor
    · rw [hres]
      rcases fallbackBest_mem f draws gs 20 51 (draws 50) (some 0) with h | ⟨j, h1, h2, h3⟩
      · exact Or.inl h
      · exact Or.inr ⟨j, h1, by omega, h3⟩
    · intro j hj1 hj2
      rw [hres]
      exact (fallbackBest_inv f draws gs 20 51 (draws 50) (some 0)
        (minDist_nonneg f hf gs (draws 50))).2 j hj1 (by omega)

/-- C8 witness: the amended theorem applied to the C8 state, with the
nonnegativity of ratSqrt discharging the host square-root hypothesis. -/
theorem C8_spawn_search_witness :
    (∀ q, 0 ≤ ratSqrt q)
    ∧ ((∀ k, k < 50 → isSafePos ratSqrt C8state 100 (C8draws k) = true →
        (∀ j, j < k → isSafePos ratSqrt C8state 100 (C8draws j) = false) →
        findSafeSpawnLocation ratSqrt C8draws C8state 100 = C8draws k)
      ∧ ((∀ k, k < 50 → isSafePos ratSqrt C8state 100 (C8draws k) = false) →
        (findSafeSpawnLocation ratSqrt C8draws C8state 100 = C8draws 50
          ∨ ∃ j, 51 ≤ j ∧ j < 71 ∧ findSafeSpawnLocation ratSqrt C8draws C8state 100 = C8draws j)
        ∧ ∀ j, 51 ≤ j → j < 71 →
            infLE (minDistToEntities ratSqrt C8state (C8draws j))
              (minDistToEntities ratSqrt C8state (findSafeSpawnLocation ratSqrt C8draws C8state 100))
              = true)) :=
  ⟨ratSqrt_nonneg, C8_spawn_search ratSqrt C8draws C8state 100 ratSqrt_nonneg⟩

/-! ## Claim C2: the repulsion branch and the loose attraction branch -/

/-- C2: the claim states that for some pair of cells in some tick both the
repulsion branch (distance below the touch distance) and the not-yet-eligible
attraction branch (distance above the touch distance) apply to that same pair
in that same tick, because their conditions were thought non-exclusive.  The
two guards are in fact mutually exclusive: no pair physics state whatsoever
fires both branches. -/
theorem C2_counterexample :
    (fun ph : PairPhysics => repulsionBranchFires ph && looseAttractionFires ph) =
      fun _ => false := by
  funext ph
  by_cases h : ph.distance < ph.minDistance
  · simp [repulsionBranchFires, looseAttractionFires, h, lt_asymm h]
  · simp [repulsionBranchFires, looseAttractionFires, h]

/-- C2 (amended): within one tick, the two non-merging branches of the pair
scan test mutually exclusive distance conditions, so for any pair at most one
of repulsion and loose attraction applies (and neither does when the distance
equals the touch distance): the sequential composition in the source equals
an exclusive conditional. -/
theorem C2_branches_exclusive (cells : List Cell) (i j : ℕ) (ph : PairPhysics) :
    mergeElseBranch cells i j ph =
      if repulsionBranchFires ph then
        match cells.get? i, cells.get? j with
        | some c1, some c2 =>
            setPair cells i j (applyRepulsionForce c1 c2 ph.distance ph.minDistance)
        | _, _ => cells
      else if looseAttractionFires ph then
        match cells.get? i, cells.get? j with
        | some c1, some c2 =>
            setPair cells i j (applyAttractionForce c1 c2 ph.distance ph.canMerge)
        | _, _ => cells
      else cells := by
  unfold mergeElseBranch
  by_cases h : ph.distance < ph.minDistance
  · have h2 : looseAttractionFires ph = false := by
      simp [looseAttractionFires, lt_asymm h]
    have h1 : repulsionBranchFires ph = true := by
      simp [repulsionBranchFires, h]
    simp [h1, h2]
  · have h1 : repulsionBranchFires ph = false := by
      simp [repulsionBranchFires, h]
    simp [h1]

/-! ## Claim C5: the strict collision threshold -/

/-- C5: in both collision resolvers an overlapping pair is decided by the
shared verdict; consumption happens only when one size strictly exceeds
COLLISION_THRESHOLD (1.1) times the other.  Two equal sizes never consume
each other, a size of exactly 1.1 times the other does not consume it, and a
size strictly above that ratio does. -/
theorem C5_collision_threshold (d s r : ℚ) (hs : 0 ≤ s) :
    collisionVerdict d s s = Verdict.noEat
    ∧ collisionVerdict d (s * COLLISION_THRESHOLD) s = Verdict.noEat
    ∧ (d < r + s → s * COLLISION_THRESHOLD < r → collisionVerdict d r s = Verdict.firstEats)
    ∧ (collisionVerdict d r s = Verdict.firstEats → s * COLLISION_THRESHOLD < r)
    ∧ (collisionVerdict d r s = Verdict.secondEats → r * COLLISION_THRESHOLD < s) := by
  unfold collisionVerdict COLLISION_THRESHOLD
  refine ⟨?_, ?_, ?_, ?_, ?_⟩
  · split_ifs with h1 h2
    · exact absurd h2 (by linarith)
    · rfl
    · rfl
  · split_ifs with h1 h2 h3
    · exact absurd h2 (by linarith)
    · exact absurd h3 (by linarith)
    · rfl
    · rfl
  · intro hov hr
    rw [if_pos hov, if_pos (by linarith)]
  · split_ifs with h1 h2 h3
    · exact fun _ => h2
    · exact fun h => h.elim
    · exact fun h => h.elim
    · exact fun h => h.elim
  · split_ifs with h1 h2 h3
    · exact fun h => h.elim
    · exact fun _ => h3
    · exact fun h => h.elim
    · exact fun h => h.elim

/-- C5 witness at an overlapping concrete pair with sizes 100 and 89. -/
theorem C5_collision_threshold_witness :
    (0 : ℚ) ≤ 89
    ∧ (collisionVerdict 0 89 89 = Verdict.noEat
       ∧ collisionVerdict 0 (89 * COLLISION_THRESHOLD) 89 = Verdict.noEat
       ∧ ((0:ℚ) < 100 + 89 → 89 * COLLISION_THRESHOLD < 100 →
            collisionVerdict 0 100 89 = Verdict.firstEats)
       ∧ (collisionVerdict 0 100 89 = Verdict.firstEats → 89 * COLLISION_THRESHOLD < 100)
       ∧ (collisionVerdict 0 100 89 = Verdict.secondEats → 100 * COLLISION_THRESHOLD < 89)) :=
  ⟨by norm_num, C5_collision_threshold 0 89 100 (by norm_num)⟩

/-! ## Claim C6: symmetric force application and momentum -/

/-- C6: the claim asserts that the exactly-opposite velocity deltas conserve
the pair's mass-weighted momentum.  They do not when the two masses differ:
an attraction step on overlapping cells of masses 100 and 400 changes the
mass-weighted velocity sum. -/
theorem C6_counterexample :
    ((applyAttractionForce
        { x := 0, y := 0, score := 100, velocityX := 0, velocityY := 0 }
        { x := 3, y := 4, score := 400, velocityX := 0, velocityY := 0 } 5 true).1.score *
      (applyAttractionForce
        { x := 0, y := 0, score := 100, velocityX := 0, velocityY := 0 }
        { x := 3, y := 4, score := 400, velocityX := 0, velocityY := 0 } 5 true).1.velocityX +
     (applyAttractionForce
        { x := 0, y := 0, score := 100, velocityX := 0, velocityY := 0 }
        { x := 3, y := 4, score := 400, velocityX := 0, velocityY := 0 } 5 true).2.score *
      (applyAttractionForce
        { x := 0, y := 0, score := 100, velocityX := 0, velocityY := 0 }
        { x := 3, y := 4, score := 400, velocityX := 0, velocityY := 0 } 5 true).2.velocityX)
    ≠ ((100 : ℚ) * 0 + 400 * 0) := by
  norm_num [applyAttractionForce, MERGE_FORCE]

/-- C6 (amended): every force branch (merge attraction, repulsion, and
pre-cooldown attraction, selected by the canMerge flag) adds a vector to one
cell's velocity and subtracts the same vector from the other's, which leaves
the pair's summed velocity unchanged; the mass-weighted momentum contribution
is conserved exactly when the two masses are equal. -/
theorem C6_force_symmetry (c1 c2 : Cell) (d minD : ℚ) (cm : Bool) :
    ((applyAttractionForce c1 c2 d cm).1.velocityX - c1.velocityX
        = -((applyAttractionForce c1 c2 d cm).2.velocityX - c2.velocityX)
      ∧ (applyAttractionForce c1 c2 d cm).1.velocityY - c1.velocityY
        = -((applyAttractionForce c1 c2 d cm).2.velocityY - c2.velocityY)
      ∧ (applyAttractionForce c1 c2 d cm).1.velocityX + (applyAttractionForce c1 c2 d cm).2.velocityX
        = c1.velocityX + c2.velocityX
      ∧ (applyAttractionForce c1 c2 d cm).1.velocityY + (applyAttractionForce c1 c2 d cm).2.velocityY
        = c1.velocityY + c2.velocityY
      ∧ (c1.score = c2.score →
          (applyAttractionForce c1 c2 d cm).1.score * (applyAttractionForce c1 c2 d cm).1.velocityX
            + (applyAttractionForce c1 c2 d cm).2.score * (applyAttractionForce c1 c2 d cm).2.velocityX
          = c1.score * c1.velocityX + c2.score * c2.velocityX))
    ∧ ((applyRepulsionForce c1 c2 d minD).1.velocityX - c1.velocityX
        = -((applyRepulsionForce c1 c2 d minD).2.velocityX - c2.velocityX)
      ∧ (applyRepulsionForce c1 c2 d minD).1.velocityY - c1.velocityY
        = -((applyRepulsionForce c1 c2 d minD).2.velocityY - c2.velocityY)
      ∧ (applyRepulsionForce c1 c2 d minD).1.velocityX + (applyRepulsionForce c1 c2 d minD).2.velocityX
        = c1.velocityX + c2.velocityX
      ∧ (applyRepulsionForce c1 c2 d minD).1.velocityY + (applyRepulsionForce c1 c2 d minD).2.velocityY
        = c1.velocityY + c2.velocityY
      ∧ (c1.score = c2.score →
          (applyRepulsionForce c1 c2 d minD).1.score * (applyRepulsionForce c1 c2 d minD).1.velocityX
            + (applyRepulsionForce c1 c2 d minD).2.score * (applyRepulsionForce c1 c2 d minD).2.velocityX
          = c1.score * c1.velocityX + c2.score * c2.velocityX)) := by
  unfold applyAttractionForce applyRepulsionForce
  refine ⟨⟨by ring, by ring, by ring, by ring, ?_⟩, by ring, by ring, by ring, by ring, ?_⟩
  · intro h
    simp only
    rw [h]
    ring
  · intro h
    simp only
    rw [h]
    ring

/-! ## Claim C9: the population maintainer is idempotent at its fixed point -/

/-- C9: when the food count already equals FOOD_COUNT, the AI count equals
AI_COUNT and at least one player cell exists, respawnEntities changes nothing:
neither of the three entity lists is mutated. -/
theorem C9_respawn_idempotent (f : ℚ → ℚ) (foodDraws : ℕ → Point) (foodHues : ℕ → ℚ)
    (aiSpawnDraws : ℕ → ℕ → Point) (aiHues aiDirections : ℕ → ℚ)
    (playerSpawnDraws : ℕ → Point) (gs : GameState)
    (hfood : gs.food.length = FOOD_COUNT)
    (hai : gs.aiPlayers.length = AI_COUNT)
    (hcells : gs.playerCells ≠ []) :
    respawnEntities f foodDraws foodHues aiSpawnDraws aiHues aiDirections
      playerSpawnDraws gs = gs := by
  obtain ⟨cells, ais, food⟩ := gs
  simp only at hfood hai hcells
  unfold respawnEntities
  simp only [hfood, hai, Nat.sub_self, topUpFood, topUpAI]
  have hlen : cells.length ≠ 0 := by
    simpa [List.length_eq_zero] using hcells
  simp [hlen]

/-- C9 witness: a state with exactly 100 food items, 10 AIs and one player
cell is returned unchanged. -/
theorem C9_respawn_idempotent_witness :
    (List.replicate FOOD_COUNT ({ x := 0, y := 0, hue := 0 } : Food)).length = FOOD_COUNT
    ∧ (List.replicate AI_COUNT
        ({ x := 0, y := 0, score := 50, hue := 0, direction := 0, name := "Zed" } : AIPlayer)).length
        = AI_COUNT
    ∧ ([({ x := 0, y := 0, score := 100, velocityX := 0, velocityY := 0 } : Cell)] ≠ [])
    ∧ respawnEntities ratSqrt (fun _ => ⟨0, 0⟩) (fun _ => 0) (fun _ _ => ⟨0, 0⟩)
        (fun _ => 0) (fun _ => 0) (fun _ => ⟨0, 0⟩)
        { playerCells := [{ x := 0, y := 0, score := 100, velocityX := 0, velocityY := 0 }],
          aiPlayers := List.replicate AI_COUNT
            { x := 0, y := 0, score := 50, hue := 0, direction := 0, name := "Zed" },
          food := List.replicate FOOD_COUNT { x := 0, y := 0, hue := 0 } }
      = { playerCells := [{ x := 0, y := 0, score := 100, velocityX := 0, velocityY := 0 }],
          aiPlayers := List.replicate AI_COUNT
            { x := 0, y := 0, score := 50, hue := 0, direction := 0, name := "Zed" },
          food := List.replicate FOOD_COUNT { x := 0, y := 0, hue := 0 } } :=
  ⟨by simp, by simp, by simp,
   C9_respawn_idempotent ratSqrt (fun _ => ⟨0, 0⟩) (fun _ => 0) (fun _ _ => ⟨0, 0⟩)
     (fun _ => 0) (fun _ => 0) (fun _ => ⟨0, 0⟩) _ (by simp) (by simp) (by simp)⟩

/-! ## Claim C10: a split request with the pointer at the viewport center -/

/-- C10: when the pointer sits exactly at the viewport center the derived
direction vector has zero magnitude and splitPlayerCell returns the state
unchanged even for a cell with mass at or above MIN_SPLIT_SCORE and a cell
count below MAX_PLAYER_CELLS: no cell is created and mass, velocity and
splitTime are untouched. -/
theorem C10_center_pointer_split_noop (f : ℚ → ℚ) (mouse : Point)
    (innerWidth innerHeight now : ℚ) (gs : GameState) (i : ℕ) (cell : Cell)
    (hf : f 0 = 0)
    (hx : mouse.x = innerWidth / 2) (hy : mouse.y = innerHeight / 2)
    (hget : gs.playerCells.get? i = some cell)
    (hscore : MIN_SPLIT_SCORE ≤ cell.score)
    (hcount : gs.playerCells.length < MAX_PLAYER_CELLS) :
    splitPlayerCell f mouse innerWidth innerHeight now gs i = gs := by
  unfold splitPlayerCell
  rw [hget]
  have hguard : ¬(cell.score < MIN_SPLIT_SCORE ∨ gs.playerCells.length ≥ MAX_PLAYER_CELLS) := by
    push_neg
    exact ⟨hscore, hcount⟩
  have h0x : mouse.x - innerWidth / 2 = 0 := by rw [hx]; ring
  have h0y : mouse.y - innerHeight / 2 = 0 := by rw [hy]; ring
  simp [hguard, h0x, h0y, hf]

/-- C10 witness: a single cell of mass 100 with the pointer at the center of
a 1024 by 768 viewport. -/
theorem C10_center_pointer_split_noop_witness :
    ratSqrt 0 = 0
    ∧ (512 : ℚ) = 1024 / 2
    ∧ (384 : ℚ) = 768 / 2
    ∧ ([({ x := 0, y := 0, score := 100, velocityX := 0, velocityY := 0 } : Cell)].get? 0
        = some { x := 0, y := 0, score := 100, velocityX := 0, velocityY := 0 })
    ∧ MIN_SPLIT_SCORE ≤ (100 : ℚ)
    ∧ ([({ x := 0, y := 0, score := 100, velocityX := 0, velocityY := 0 } : Cell)].length
        < MAX_PLAYER_CELLS)
    ∧ splitPlayerCell ratSqrt ⟨512, 384⟩ 1024 768 99999
        { playerCells := [{ x := 0, y := 0, score := 100, velocityX := 0, velocityY := 0 }],
          aiPlayers := [], food := [] } 0
      = { playerCells := [{ x := 0, y := 0, score := 100, velocityX := 0, velocityY := 0 }],
          aiPlayers := [], food := [] } :=
  ⟨ratSqrt_zero, by norm_num, by norm_num, rfl, by norm_num [MIN_SPLIT_SCORE],
   by norm_num [MAX_PLAYER_CELLS],
   C10_center_pointer_split_noop ratSqrt ⟨512, 384⟩ 1024 768 99999 _ 0 _
     ratSqrt_zero (by norm_num) (by norm_num) rfl (by norm_num [MIN_SPLIT_SCORE])
     (by norm_num [MAX_PLAYER_CELLS])⟩

/-! ## Claim C7: the merge commit never grows the cell list -/

lemma run_shape : ∀ (g : List ℕ), g ≠ [] → List.Chain' (fun a b => a = b + 1) g →
    ∃ b m, m = g.length ∧ 0 < m ∧ g = (List.range' b m).reverse := by
  intro g
  induction g with
  | nil =>
    intro h _
    exact absurd rfl h
  | cons a rest ih =>
    intro _ hch
    cases rest with
    | nil =>
      refine ⟨a, 1, rfl, one_pos, ?_⟩
      simp
    | cons r t =>
      have har : a = r + 1 := (List.chain'_cons.mp hch).1
      obtain ⟨b, m, hm, hpos, heq⟩ := ih (by simp) (List.chain'_cons.mp hch).2
      obtain ⟨k, rfl⟩ : ∃ k, m = k + 1 := ⟨m - 1, by omega⟩
      rw [descRun_cons] at heq
      injection heq with hr ht
      refine ⟨b, k + 2, ?_, by omega, ?_⟩
      · simp only [List.length_cons] at hm ⊢
        omega
      · rw [descRun_cons, descRun_cons, ← ht, ← hr, har, hr]
        have harith2 : b + k + 1 = b + (k + 1) := by omega
        rw [harith2]

lemma mergeCellGroup_ge1 (cells : List Cell) (g : List ℕ) :
    1 ≤ (mergeCellGroup cells g).length := by
  unfold mergeCellGroup
  simp

lemma foldl_merge_ge1 : ∀ (groups : List (List ℕ)) (cells : List Cell), groups ≠ [] →
    1 ≤ (groups.foldl mergeCellGroup cells).length := by
  intro groups
  induction groups with
  | nil =>
    intro cells h
    exact absurd rfl h
  | cons g gs ih =>
    intro cells _
    cases gs with
    | nil => exact mergeCellGroup_ge1 cells g
    | cons g2 gs2 => exact ih _ (by simp)

lemma execFold_le : ∀ (groups : List (List ℕ)) (cells : List Cell),
    (∀ g ∈ groups, g ≠ [] ∧ List.Chain' (fun a b => a = b + 1) g) →
    (groups.join).Pairwise (· > ·) →
    (∀ x ∈ groups.join, x < cells.length) →
    (groups.foldl mergeCellGroup cells).length ≤ cells.length := by
  intro groups
  induction groups with
  | nil =>
    intro cells _ _ _
    exact le_refl _
  | cons g gs ih =>
    intro cells hruns hpw hmem
    obtain ⟨hne, hch⟩ := hruns g (List.mem_cons_self g gs)
    obtain ⟨b, m, hm, hpos, heq⟩ := run_shape g hne hch
    obtain ⟨k, rfl⟩ : ∃ k, m = k + 1 := ⟨m - 1, by omega⟩
    rw [show (g :: gs).join = g ++ gs.join from rfl] at hpw hmem
    have hhead : b + k ∈ g := by
      rw [heq, descRun_cons]
      exact List.mem_cons_self _ _
    have hbk : b + k < cells.length := hmem _ (List.mem_append_left _ hhead)
    have hbm : b + (k + 1) ≤ cells.length := by omega
    have hlen : (mergeCellGroup cells g).length = cells.length - (k + 1) + 1 := by
      rw [heq, mergeCellGroup_run cells b (k+1) hbm]
      simp only [List.length_append, List.length_take, List.length_drop, List.length_cons,
        List.length_nil]
      omega
    have hpws := List.pairwise_append.mp hpw
    have hgt : ∀ x ∈ gs.join, x < b := by
      intro x hx
      have hb_in_g : b ∈ g := by
        rw [heq]
        rw [List.mem_reverse, List.mem_range'_1]
        omega
      exact hpws.2.2 b hb_in_g x hx
    have hmem2 : ∀ x ∈ gs.join, x < (mergeCellGroup cells g).length := by
      intro x hx
      rw [hlen]
      have := hgt x hx
      omega
    have hruns2 : ∀ g2 ∈ gs, g2 ≠ [] ∧ List.Chain' (fun a b => a = b + 1) g2 :=
      fun g2 hg2 => hruns g2 (List.mem_cons_of_mem _ hg2)
    rw [List.foldl_cons]
    calc (gs.foldl mergeCellGroup (mergeCellGroup cells g)).length
        ≤ (mergeCellGroup cells g).length := ih _ hruns2 hpws.2.1 hmem2
      _ ≤ cells.length := by
          rw [hlen]
          omega

lemma groupConsecutive_ne_nil (u : List ℕ) (h : u ≠ []) : groupConsecutiveIndices u ≠ [] := by
  cases u with
  | nil => exact absurd rfl h
  | cons x xs =>
    rw [groupConsecutiveIndices]
    obtain ⟨g, gs, heq, _⟩ := groupRunsAux_head xs [x] (by simp)
    rw [heq]
    simp

lemma updateCellMerging_bounds (f : ℚ → ℚ) (now : ℚ) (cells : List Cell) :
    (updateCellMerging f now cells).length ≤ cells.length
    ∧ (1 ≤ cells.length → 1 ≤ (updateCellMerging f now cells).length) := by
  unfold updateCellMerging executeMerges
  dsimp only
  by_cases h : (computeMergeCandidatesAndForces f now cells).2.length > 0
  · rw [if_pos h]
    have humem : ∀ x ∈ dedupFirst [] (sortDesc (computeMergeCandidatesAndForces f now cells).2),
        x < (computeMergeCandidatesAndForces f now cells).1.length := by
      intro x hx
      rw [computeMerge_len]
      exact computeMerge_mem f now cells x ((sortDesc_mem x _).mp (dedupFirst_mem hx))
    have hjoin := groupConsecutive_join
      (dedupFirst [] (sortDesc (computeMergeCandidatesAndForces f now cells).2))
    constructor
    · calc ((groupConsecutiveIndices _).foldl mergeCellGroup
            (computeMergeCandidatesAndForces f now cells).1).length
          ≤ (computeMergeCandidatesAndForces f now cells).1.length := by
            refine execFold_le _ _ (groupConsecutive_runs _) ?_ ?_
            · rw [hjoin]
              exact mergeUnique_pairwise_gt _
            · rw [hjoin]
              exact humem
        _ = cells.length := computeMerge_len f now cells
    · intro _
      refine foldl_merge_ge1 _ _ (groupConsecutive_ne_nil _ ?_)
      cases hs : sortDesc (computeMergeCandidatesAndForces f now cells).2 with
      | nil =>
        have := sortDesc_length (computeMergeCandidatesAndForces f now cells).2
        rw [hs] at this
        simp at this
        omega
      | cons a l => exact dedupFirst_ne_nil a l
  · rw [if_neg h]
    rw [computeMerge_len]
    exact ⟨le_refl _, fun h1 => h1⟩

lemma movePlayerCells_length (f : ℚ → ℚ) (mouse : Point) (w h : ℚ) (cells : List Cell) :
    (movePlayerCells f mouse w h cells).length = cells.length := by
  unfold movePlayerCells
  dsimp only
  split
  · exact List.length_map _ _
  · rfl

lemma updatePlayer_bounds (f : ℚ → ℚ) (mouse : Point) (w h now : ℚ) (gs : GameState)
    (h1 : 1 ≤ gs.playerCells.length) (h16 : gs.playerCells.length ≤ MAX_PLAYER_CELLS) :
    1 ≤ (updatePlayer f mouse w h now gs).playerCells.length
    ∧ (updatePlayer f mouse w h now gs).playerCells.length ≤ MAX_PLAYER_CELLS := by
  unfold updatePlayer
  dsimp only
  have hmv := movePlayerCells_length f mouse w h gs.playerCells
  have hb := updateCellMerging_bounds f now (movePlayerCells f mouse w h gs.playerCells)
  exact ⟨hb.2 (by omega), by omega⟩

lemma splitPlayerCell_len (f : ℚ → ℚ) (mouse : Point) (w h now : ℚ) (gs : GameState) (i : ℕ) :
    (splitPlayerCell f mouse w h now gs i).playerCells.length = gs.playerCells.length
    ∨ ((splitPlayerCell f mouse w h now gs i).playerCells.length = gs.playerCells.length + 1
        ∧ gs.playerCells.length < MAX_PLAYER_CELLS) := by
  unfold splitPlayerCell
  split
  · exact Or.inl rfl
  · rename_i cell heq
    by_cases hg : cell.score < MIN_SPLIT_SCORE ∨ gs.playerCells.length ≥ MAX_PLAYER_CELLS
    · rw [if_pos hg]
      exact Or.inl rfl
    · rw [if_neg hg]
      push_neg at hg
      dsimp only
      split
      · exact Or.inl rfl
      · refine Or.inr ⟨?_, hg.2⟩
        simp

lemma splitPlayerCell_bounds (f : ℚ → ℚ) (mouse : Point) (w h now : ℚ) (gs : GameState)
    (i : ℕ) (h1 : 1 ≤ gs.playerCells.length) (h16 : gs.playerCells.length ≤ MAX_PLAYER_CELLS) :
    1 ≤ (splitPlayerCell f mouse w h now gs i).playerCells.length
    ∧ (splitPlayerCell f mouse w h now gs i).playerCells.length ≤ MAX_PLAYER_CELLS := by
  rcases splitPlayerCell_len f mouse w h now gs i with hl | ⟨hl, hlt⟩
  · rw [hl]
    exact ⟨h1, h16⟩
  · rw [hl]
    exact ⟨by omega, hlt⟩

lemma foldl_split_bounds (f : ℚ → ℚ) (mouse : Point) (w h now : ℚ) :
    ∀ (idxs : List ℕ) (gs : GameState),
      1 ≤ gs.playerCells.length → gs.playerCells.length ≤ MAX_PLAYER_CELLS →
      1 ≤ ((idxs.foldl (fun g i => splitPlayerCell f mouse w h now g i) gs)).playerCells.length
      ∧ ((idxs.foldl (fun g i => splitPlayerCell f mouse w h now g i) gs)).playerCells.length
          ≤ MAX_PLAYER_CELLS := by
  intro idxs
  induction idxs with
  | nil =>
    intro gs hg1 hg16
    exact ⟨hg1, hg16⟩
  | cons a rest ih =>
    intro gs hg1 hg16
    rw [List.foldl_cons]
    obtain ⟨hb1, hb16⟩ := splitPlayerCell_bounds f mouse w h now gs a hg1 hg16
    exact ih _ hb1 hb16

lemma handlePlayerSplit_bounds (f : ℚ → ℚ) (mouse : Point) (w h now : ℚ) (gs : GameState)
    (h1 : 1 ≤ gs.playerCells.length) (h16 : gs.playerCells.length ≤ MAX_PLAYER_CELLS) :
    1 ≤ (handlePlayerSplit f mouse w h now gs).playerCells.length
    ∧ (handlePlayerSplit f mouse w h now gs).playerCells.length ≤ MAX_PLAYER_CELLS := by
  unfold handlePlayerSplit
  exact foldl_split_bounds f mouse w h now _ gs h1 h16

/-- C7: across a full simulation tick the player-cell count stays between 1
and MAX_PLAYER_CELLS: the tick preserves the bounds, no split operation raises
the count above the cap, the player-vs-AI resolver respawns exactly one cell
of mass STARTING_SCORE whenever its removal pass leaves zero cells, and the
population maintainer does the same for a state with no player cells. -/
theorem C7_cell_count_invariant (f cosF sinF : ℚ → ℚ) (inp : TickInputs) (gs : GameState)
    (mouse : Point) (w h now : ℚ) (i : ℕ)
    (h1 : 1 ≤ gs.playerCells.length) (h16 : gs.playerCells.length ≤ MAX_PLAYER_CELLS) :
    (1 ≤ (gameTick f cosF sinF inp gs).playerCells.length
      ∧ (gameTick f cosF sinF inp gs).playerCells.length ≤ MAX_PLAYER_CELLS)
    ∧ (splitPlayerCell f mouse w h now gs i).playerCells.length ≤ MAX_PLAYER_CELLS
    ∧ (handlePlayerSplit f mouse w h now gs).playerCells.length ≤ MAX_PLAYER_CELLS
    ∧ (∀ gs2 : GameState, (paResolve f gs2).playerCells.length = 0 →
        ((handlePlayerAICollisions f inp.paSpawnDraws gs2).playerCells.map
          fun c => c.score) = [STARTING_SCORE])
    ∧ (∀ gs2 : GameState, gs2.playerCells = [] →
        ((respawnEntities f inp.foodDraws inp.foodHues inp.aiSpawnDraws inp.aiHues
          inp.aiDirections inp.playerSpawnDraws gs2).playerCells.map
            fun c => c.score) = [STARTING_SCORE]) := by
  refine ⟨?_, ?_, ?_, ?_, ?_⟩
  · have hU := updatePlayer_bounds f inp.mouse inp.innerWidth inp.innerHeight inp.now gs h1 h16
    have htick : gameTick f cosF sinF inp gs
        = respawnEntities f inp.foodDraws inp.foodHues inp.aiSpawnDraws inp.aiHues
            inp.aiDirections inp.playerSpawnDraws
          (handleAIAICollisions f
            (handlePlayerAICollisions f inp.paSpawnDraws
              (handleFoodCollisions f
                { updatePlayer f inp.mouse inp.innerWidth inp.innerHeight inp.now gs with
                  aiPlayers := updateAI f cosF sinF inp.aiRolls inp.aiNewDirs
                    (updatePlayer f inp.mouse inp.innerWidth inp.innerHeight
                      inp.now gs).aiPlayers }))) := rfl
    rw [htick]
    have hF : (handleFoodCollisions f
        { updatePlayer f inp.mouse inp.innerWidth inp.innerHeight inp.now gs with
          aiPlayers := updateAI f cosF sinF inp.aiRolls inp.aiNewDirs
            (updatePlayer f inp.mouse inp.innerWidth inp.innerHeight
              inp.now gs).aiPlayers }).playerCells.length
        = (updatePlayer f inp.mouse inp.innerWidth inp.innerHeight
            inp.now gs).playerCells.length := by
      rw [handleFoodCollisions_playerLength]
    have hP1 := handlePlayerAICollisions_ge1 f inp.paSpawnDraws
      (handleFoodCollisions f
        { updatePlayer f inp.mouse inp.innerWidth inp.innerHeight inp.now gs with
          aiPlayers := updateAI f cosF sinF inp.aiRolls inp.aiNewDirs
            (updatePlayer f inp.mouse inp.innerWidth inp.innerHeight
              inp.now gs).aiPlayers })
    have hP16 := handlePlayerAICollisions_le f inp.paSpawnDraws
      (handleFoodCollisions f
        { updatePlayer f inp.mouse inp.innerWidth inp.innerHeight inp.now gs with
          aiPlayers := updateAI f cosF sinF inp.aiRolls inp.aiNewDirs
            (updatePlayer f inp.mouse inp.innerWidth inp.innerHeight
              inp.now gs).aiPlayers })
      MAX_PLAYER_CELLS (by decide) (by omega)
    rw [respawnEntities_keep _ _ _ _ _ _ _ _ (by rw [handleAIAICollisions_playerCells]; omega),
      handleAIAICollisions_playerCells]
    exact ⟨hP1, hP16⟩
  · rcases splitPlayerCell_len f mouse w h now gs i with hl | ⟨hl, hlt⟩
    · omega
    · omega
  · exact (handlePlayerSplit_bounds f mouse w h now gs h1 h16).2
  · intro gs2 h0
    unfold handlePlayerAICollisions
    rw [if_pos h0]
    have h0l : (paResolve f gs2).playerCells = [] := List.length_eq_zero.mp h0
    simp [h0l, STARTING_SCORE]
  · intro gs2 h0
    exact respawnEntities_zero f inp.foodDraws inp.foodHues inp.aiSpawnDraws inp.aiHues
      inp.aiDirections inp.playerSpawnDraws gs2 h0

/-- C7 witness: the invariant theorem applied to a one-cell state and a
deterministic tick input. -/
theorem C7_cell_count_invariant_witness :
    1 ≤ C7state.playerCells.length
    ∧ C7state.playerCells.length ≤ MAX_PLAYER_CELLS
    ∧ ((1 ≤ (gameTick ratSqrt ratSqrt ratSqrt C7inp C7state).playerCells.length
        ∧ (gameTick ratSqrt ratSqrt ratSqrt C7inp C7state).playerCells.length ≤ MAX_PLAYER_CELLS)
      ∧ (splitPlayerCell ratSqrt ⟨0, 0⟩ 1024 768 0 C7state 0).playerCells.length
          ≤ MAX_PLAYER_CELLS
      ∧ (handlePlayerSplit ratSqrt ⟨0, 0⟩ 1024 768 0 C7state).playerCells.length
          ≤ MAX_PLAYER_CELLS
      ∧ (∀ gs2 : GameState, (paResolve ratSqrt gs2).playerCells.length = 0 →
          ((handlePlayerAICollisions ratSqrt C7inp.paSpawnDraws gs2).playerCells.map
            fun c => c.score) = [STARTING_SCORE])
      ∧ (∀ gs2 : GameState, gs2.playerCells = [] →
          ((respawnEntities ratSqrt C7inp.foodDraws C7inp.foodHues C7inp.aiSpawnDraws
            C7inp.aiHues C7inp.aiDirections C7inp.playerSpawnDraws gs2).playerCells.map
              fun c => c.score) = [STARTING_SCORE])) :=
  ⟨by norm_num [C7state], by norm_num [C7state, MAX_PLAYER_CELLS],
   C7_cell_count_invariant ratSqrt ratSqrt ratSqrt C7inp C7state ⟨0, 0⟩ 1024 768 0 0
     (by norm_num [C7state]) (by norm_num [C7state, MAX_PLAYER_CELLS])⟩

end Agar
